import Mathlib

/-!
# SUDOKU-IN-C: a shallow embedding of `grid.c` and `sudoku.c`

The C functions are embedded as pure Lean functions on an explicit grid value.
A `Grid_T *g` argument that the C code mutates becomes a grid that is passed in
and returned.  The `for` loops with constant bounds become folds over
`List.range`, loops that `break` become recursions over the remaining indices,
and the two unbounded loops (`while(1)` of `sudoku_try_next`, the `while` of
`sudoku_solve`) take a fuel argument and return `none` when it runs out.
`rand()` is a stream `rnd : Nat → Nat` read at an explicit position.
-/

namespace Sudoku

/-! ## Data model (`grid.h`) -/

/-- Modelled from the spec: the header `grid.h` is not among the sources; the
field names are the ones `grid.c` and `sudoku.c` use (`choices.count`,
`choices.num[n]`).  The array `num` is indexed by the digit. -/
structure Choice_T where
  count : Int
  num : Nat → Int

/-- Modelled from the spec: one cell of `grid.h` (`elts[i][j].val`,
`elts[i][j].choices`); `val` is `0` for an empty cell. -/
structure Elt_T where
  val : Nat
  choices : Choice_T

/-- Modelled from the spec: the grid of `grid.h` (`g.unique`, `g.elts[i][j]`);
only the indices `0..8` are cells of the C array. -/
structure Grid_T where
  unique : Int
  elts : Nat → Nat → Elt_T

/-- Store `e` in `g->elts[i][j]`. -/
def setElt (g : Grid_T) (i j : Nat) (e : Elt_T) : Grid_T :=
  { g with elts := fun a b => if a = i ∧ b = j then e else g.elts a b }

/-! ## `grid.c` -/

def grid_update_value (g : Grid_T) (i j n : Nat) : Grid_T :=
  setElt g i j { g.elts i j with val := n }

def grid_read_value (g : Grid_T) (i j : Nat) : Nat :=
  (g.elts i j).val

def grid_set_choice (g : Grid_T) (i j n : Nat) : Grid_T :=
  setElt g i j { g.elts i j with
    choices := { (g.elts i j).choices with
      num := fun k => if k = n then 1 else (g.elts i j).choices.num k } }

def grid_clear_choice (g : Grid_T) (i j n : Nat) : Grid_T :=
  setElt g i j { g.elts i j with
    choices := { (g.elts i j).choices with
      num := fun k => if k = n then 0 else (g.elts i j).choices.num k } }

def grid_choice_is_valid (g : Grid_T) (i j n : Nat) : Int :=
  (g.elts i j).choices.num n

/-- The decrement `g->elts[i][j].choices.count--` of `grid_remove_choice`. -/
def grid_dec_count (g : Grid_T) (i j : Nat) : Grid_T :=
  setElt g i j { g.elts i j with
    choices := { (g.elts i j).choices with count := (g.elts i j).choices.count - 1 } }

def grid_remove_choice (g : Grid_T) (i j n : Nat) : Grid_T :=
  if grid_choice_is_valid g i j n ≠ 0 then
    grid_dec_count (grid_clear_choice g i j n) i j
  else g

def grid_read_count (g : Grid_T) (i j : Nat) : Int :=
  (g.elts i j).choices.count

def grid_set_count (g : Grid_T) (i j : Nat) : Grid_T :=
  setElt g i j { g.elts i j with choices := { (g.elts i j).choices with count := 9 } }

def grid_clear_count (g : Grid_T) (i j : Nat) : Grid_T :=
  setElt g i j { g.elts i j with choices := { (g.elts i j).choices with count := 0 } }

def grid_read_unique (g : Grid_T) : Int := g.unique

def grid_set_unique (g : Grid_T) : Grid_T := { g with unique := 1 }

def grid_clear_unique (g : Grid_T) : Grid_T := { g with unique := 0 }

/-! ## `sudoku.c`: the validator -/

/-- What a check function has done so far: its `correct` variable and the
conflict lines it has printed to `stderr`, each as (number, group index). -/
abbrev CheckState := Nat × List (Nat × Nat)

/-- The loop `for(k=j+1; k<9; k++)` of `check_row_errors` over the remaining
values of `k`; a match prints, sets `correct = 1` and breaks. -/
def check_row_inner (g : Grid_T) (i j : Nat) : List Nat → CheckState → CheckState
  | [], s => s
  | k :: ks, s =>
    if grid_read_value g i j = grid_read_value g i k then
      (1, s.2 ++ [(grid_read_value g i j, i)])
    else check_row_inner g i j ks s

def check_row_errors (g : Grid_T) : CheckState :=
  (List.range 9).foldl (fun s i =>
    (List.range 9).foldl (fun s j =>
      if grid_read_value g i j = 0 then s
      else check_row_inner g i j (List.range' (j + 1) (9 - (j + 1))) s) s) (0, [])

/-- The loop `for(k=i+1; k<9; k++)` of `check_col_errors`. -/
def check_col_inner (g : Grid_T) (i j : Nat) : List Nat → CheckState → CheckState
  | [], s => s
  | k :: ks, s =>
    if grid_read_value g i j = grid_read_value g k j then
      (1, s.2 ++ [(grid_read_value g i j, j)])
    else check_col_inner g i j ks s

def check_col_errors (g : Grid_T) : CheckState :=
  (List.range 9).foldl (fun s j =>
    (List.range 9).foldl (fun s i =>
      if grid_read_value g i j = 0 then s
      else check_col_inner g i j (List.range' (i + 1) (9 - (i + 1))) s) s) (0, [])

def findBlock (i j : Nat) : Nat :=
  let row := i / 3
  let col := j / 3
  if row = 0 then
    if col = 0 then 1 else if col = 1 then 2 else 3
  else if row = 1 then
    if col = 0 then 4 else if col = 1 then 5 else 6
  else
    if col = 0 then 7 else if col = 1 then 8 else 9

/-- First row of block `b`: the `if(b==1 || b==2 || b==3) row=0; ...` chain. -/
def blockRow (b : Nat) : Nat :=
  if b = 1 ∨ b = 2 ∨ b = 3 then 0 else if b = 4 ∨ b = 5 ∨ b = 6 then 3 else 6

/-- First column of block `b`: the `if(b==1 || b==4 || b==7) col=0; ...` chain. -/
def blockCol (b : Nat) : Nat :=
  if b = 1 ∨ b = 4 ∨ b = 7 then 0 else if b = 2 ∨ b = 5 ∨ b = 8 then 3 else 6

/-- The loop `for(c=col; c<col+3; c++)` of `check_subgrid_errors` over the
remaining values of `c`; an empty cell is skipped, a match breaks. -/
def check_subgrid_inner (g : Grid_T) (i j b r : Nat) : List Nat → CheckState → CheckState
  | [], s => s
  | c :: cs, s =>
    if grid_read_value g r c = 0 then check_subgrid_inner g i j b r cs s
    else if (r ≠ i ∨ c ≠ j) ∧ grid_read_value g i j = grid_read_value g r c then
      (1, s.2 ++ [(grid_read_value g i j, b)])
    else check_subgrid_inner g i j b r cs s

def check_subgrid_errors (g : Grid_T) : CheckState :=
  (List.range 9).foldl (fun s i =>
    (List.range 9).foldl (fun s j =>
      let b := findBlock i j
      let row := blockRow b
      let col := blockCol b
      (List.range' row 3).foldl (fun s r =>
        check_subgrid_inner g i j b r (List.range' col 3) s) s) s) (0, [])

def sudoku_is_correct (g : Grid_T) : Nat :=
  let row := (check_row_errors g).1
  let col := (check_col_errors g).1
  let grid := (check_subgrid_errors g).1
  if row = 0 ∧ col = 0 ∧ grid = 0 then 1 else 0

/-! ## `sudoku.c`: candidates -/

def isComplete (g : Grid_T) : Nat :=
  if (List.range 9).all (fun i => (List.range 9).all (fun j =>
      decide (grid_read_count g i j = 0))) then 1 else 0

def emptyCells (g : Grid_T) : Nat :=
  (List.range 9).foldl (fun count i =>
    (List.range 9).foldl (fun count j =>
      if grid_read_value g i j = 0 then count + 1 else count) count) 0

def sudoku_eliminate_choice (g : Grid_T) (r c n : Nat) : Grid_T :=
  let g1 := (List.range 9).foldl (fun g i =>
    let g := if i ≠ c then grid_remove_choice g r i n else g
    if i ≠ r then grid_remove_choice g i c n else g) g
  let b := findBlock r c
  let row := blockRow b
  let col := blockCol b
  (List.range' row 3).foldl (fun g i =>
    (List.range' col 3).foldl (fun g j =>
      if i ≠ r ∨ j ≠ c then grid_remove_choice g i j n else g) g) g1

def sudoku_init_choices (g : Grid_T) : Grid_T :=
  let g1 := (List.range 9).foldl (fun g i =>
    (List.range 9).foldl (fun g j =>
      let g := grid_clear_choice (grid_set_count g i j) i j 0
      (List.range' 1 9).foldl (fun g r => grid_set_choice g i j r) g) g) (grid_set_unique g)
  (List.range 9).foldl (fun g i =>
    (List.range 9).foldl (fun g j =>
      let val := grid_read_value g i j
      if val ≠ 0 then
        let g := grid_clear_count g i j
        let g := (List.range' 1 9).foldl (fun g r => grid_clear_choice g i j r) g
        sudoku_eliminate_choice g i j val
      else g) g) g1

def sudoku_update_choice (g : Grid_T) (i j n : Nat) : Int × Grid_T :=
  let before := grid_read_count g i j
  (before, grid_remove_choice g i j n)

/-! ## `sudoku.c`: the solver -/

/-- What `sudoku_try_next` hands back: its return value, the contents of `*row`
and `*col` after the call, and the position reached in the random stream. -/
structure TryNext where
  ret : Nat
  row : Nat
  col : Nat
  pos : Nat

/-- The loop of `sudoku_try_next` that finds the least count, starting from 9. -/
def minCount (g : Grid_T) : Int :=
  (List.range 9).foldl (fun count i =>
    (List.range 9).foldl (fun count j =>
      if grid_read_count g i j ≤ count then grid_read_count g i j else count) count) 9

/-- The `while(1)` loop of `sudoku_try_next`; each iteration draws `r`, `c` and,
when the count of the cell matches, `num`. -/
def sudoku_try_next_loop (rnd : Nat → Nat) (g : Grid_T) (count : Int) :
    Nat → Nat → Option TryNext
  | 0, _ => none
  | fuel + 1, p =>
    let r := rnd p % 9
    let c := rnd (p + 1) % 9
    if grid_read_count g r c = count then
      let num := rnd (p + 2) % 9 + 1
      if grid_choice_is_valid g r c num ≠ 0 then
        some { ret := num, row := r, col := c, pos := p + 3 }
      else sudoku_try_next_loop rnd g count fuel (p + 3)
    else sudoku_try_next_loop rnd g count fuel (p + 2)

def sudoku_try_next (rnd : Nat → Nat) (fuel p : Nat) (g : Grid_T) (row col : Nat) :
    Option TryNext :=
  if isComplete g ≠ 0 then some { ret := 0, row := row, col := col, pos := p }
  else sudoku_try_next_loop rnd g (minCount g) fuel p

/-- What `sudoku_solve` hands back: the returned grid, the position reached in
the random stream, and a ghost flag telling whether this invocation executed
its `else` branch (the multi-candidate case) at least once. -/
structure SolveResult where
  grid : Grid_T
  pos : Nat
  branched : Bool

/-- The `while` loop of `sudoku_solve`; `solve` is the recursive call. -/
def sudoku_solve_loop (solve : Nat → Grid_T → Option SolveResult) (rnd : Nat → Nat) :
    Nat → Nat → Grid_T → Nat → Nat → Bool → Option SolveResult
  | 0, _, _, _, _, _ => none
  | fuel + 1, p, g, i, j, br =>
    match sudoku_try_next rnd (fuel + 1) p g i j with
    | none => none
    | some t =>
      if t.ret = 0 then some { grid := g, pos := t.pos, branched := br }
      else
        let uc := sudoku_update_choice g t.row t.col t.ret
        if uc.1 = 1 then
          let g := grid_update_value uc.2 t.row t.col t.ret
          let g := sudoku_eliminate_choice g t.row t.col t.ret
          sudoku_solve_loop solve rnd fuel t.pos g t.row t.col br
        else
          let g := grid_clear_unique uc.2
          let tmp := grid_update_value g t.row t.col t.ret
          match solve t.pos tmp with
          | none => none
          | some s =>
            if sudoku_is_correct s.grid ≠ 0 then
              some { grid := s.grid, pos := s.pos, branched := true }
            else sudoku_solve_loop solve rnd fuel s.pos g t.row t.col true

def sudoku_solve (rnd : Nat → Nat) : Nat → Nat → Grid_T → Option SolveResult
  | 0, _, _ => none
  | fuel + 1, p, g =>
    sudoku_solve_loop (sudoku_solve rnd fuel) rnd (fuel + 1) p (sudoku_init_choices g) 0 0 false

/-- The body of `sudoku_generate_complete`; `g0` is the content of the
uninitialised local `Grid_T g`. -/
def sudoku_generate_complete (rnd : Nat → Nat) (fuel p : Nat) (g0 : Grid_T) :
    Option SolveResult :=
  let g := { g0 with unique := 0 }
  let g := (List.range 9).foldl (fun g i =>
    (List.range 9).foldl (fun g j => grid_update_value g i j 0) g) g
  let g := sudoku_init_choices g
  sudoku_solve rnd fuel p g

/-- The removal loop of `sudoku_generate`. -/
def sudoku_generate_loop (rnd : Nat → Nat) (nelts : Int) :
    Nat → Nat → Grid_T → Option (Grid_T × Nat)
  | 0, _, _ => none
  | fuel + 1, p, g =>
    if (81 : Int) - (emptyCells g : Int) > nelts then
      let i := rnd p % 9
      let j := rnd (p + 1) % 9
      let g := grid_update_value g i j 0
      let g := grid_set_count g i j
      sudoku_generate_loop rnd nelts fuel (p + 2) g
    else some (g, p)

def sudoku_generate (rnd : Nat → Nat) (fuel p : Nat) (g0 : Grid_T) (nelts : Int) :
    Option (Grid_T × Nat) :=
  match sudoku_generate_complete rnd fuel p g0 with
  | none => none
  | some s => sudoku_generate_loop rnd nelts (fuel + 1) s.pos s.grid

/-! # Specification-level definitions -/

/-- Cell `(i,j)` of the 9x9 grid is a peer of `(r,c)`: another cell of the same
row, the same column or the same 3x3 block. -/
def peer (r c i j : Nat) : Prop :=
  i < 9 ∧ j < 9 ∧ (i ≠ r ∨ j ≠ c) ∧ (i = r ∨ j = c ∨ (i / 3 = r / 3 ∧ j / 3 = c / 3))

instance (r c i j : Nat) : Decidable (peer r c i j) := by
  unfold peer; infer_instance

/-- Some non-empty cell has a peer holding the same value. -/
def conflict (g : Grid_T) : Prop :=
  ∃ r < 9, ∃ c < 9, ∃ i < 9, ∃ j < 9,
    peer r c i j ∧ grid_read_value g r c ≠ 0 ∧ grid_read_value g r c = grid_read_value g i j

/-- A loop that scans `ks`, and at the first `k` with `hit k` prints `rep`, sets
the flag and stops. -/
def scan (hit : Nat → Bool) (rep : Nat × Nat) : List Nat → CheckState → CheckState
  | [], s => s
  | k :: ks, s => if hit k then (1, s.2 ++ [rep]) else scan hit rep ks s

/-- The flag of a check state is 1 when `P` holds and 0 otherwise. -/
def Flag (s : CheckState) (P : Prop) : Prop := (s.1 = 1 ∧ P) ∨ (s.1 = 0 ∧ ¬ P)

/-- Some row holds a non-zero value twice. -/
def rowConflict (g : Grid_T) : Prop :=
  ∃ i < 9, ∃ j < 9, ∃ k < 9, j < k ∧ grid_read_value g i j ≠ 0 ∧
    grid_read_value g i j = grid_read_value g i k

/-- Some column holds a non-zero value twice. -/
def colConflict (g : Grid_T) : Prop :=
  ∃ j < 9, ∃ i < 9, ∃ k < 9, i < k ∧ grid_read_value g i j ≠ 0 ∧
    grid_read_value g i j = grid_read_value g k j

/-- Some 3x3 block holds a non-zero value twice. -/
def blockConflict (g : Grid_T) : Prop :=
  ∃ i < 9, ∃ j < 9, ∃ r < 9, ∃ c < 9, r / 3 = i / 3 ∧ c / 3 = j / 3 ∧ (r ≠ i ∨ c ≠ j) ∧
    grid_read_value g r c ≠ 0 ∧ grid_read_value g i j = grid_read_value g r c

/-- A grid with the value 5 in cells (0,0) and (0,1) and all other cells empty. -/
def twoFives : Grid_T :=
  { unique := 0,
    elts := fun i j => { val := if i = 0 ∧ j < 2 then 5 else 0,
                         choices := { count := 0, num := fun _ => 0 } } }

/-- What `grid_remove_choice` does to the cell it is applied to. -/
def removeElt (n : Nat) (e : Elt_T) : Elt_T :=
  if e.choices.num n ≠ 0 then
    { val := e.val,
      choices := { count := e.choices.count - 1,
                   num := fun k => if k = n then 0 else e.choices.num k } }
  else e

/-- Grid `g` is `g0` with `removeElt n` applied to the cells in `S` and nothing
else changed. -/
def Touched (n : Nat) (S : Nat → Nat → Prop) (g0 g : Grid_T) : Prop :=
  g.unique = g0.unique ∧
  ∀ i j, (S i j → g.elts i j = removeElt n (g0.elts i j)) ∧ (¬ S i j → g.elts i j = g0.elts i j)

/-- The 81 cells of the grid, as coordinate pairs. -/
def allCells : List (Nat × Nat) :=
  (List.range 9).flatMap (fun i => (List.range 9).map (fun j => (i, j)))

/-- Number of peers of `(r,c)` among the 81 cells. -/
def peerCount (r c : Nat) : Nat :=
  allCells.countP (fun p => decide (peer r c p.1 p.2))

/-- A grid of empty cells in which every cell has count 9 and every flag set. -/
def fullChoices : Grid_T :=
  { unique := 1,
    elts := fun _ _ => { val := 0, choices := { count := 9, num := fun _ => 1 } } }

/-- What the first loop of `sudoku_init_choices` makes of a cell: count 9, flag 0
cleared, flags 1..9 set. -/
def fullElt (e : Elt_T) : Elt_T :=
  { val := e.val,
    choices := { count := 9,
                 num := fun k => if 1 ≤ k ∧ k ≤ 9 then 1 else if k = 0 then 0
                                 else e.choices.num k } }

/-- What the second loop of `sudoku_init_choices` makes of a filled cell before
it eliminates: count 0, flags 1..9 cleared. -/
def clearedElt (e : Elt_T) : Elt_T :=
  { val := e.val,
    choices := { count := 0,
                 num := fun k => if 1 ≤ k ∧ k ≤ 9 then 0 else e.choices.num k } }

/-- Apply `F` to each of the 81 cells. -/
def mapCells (F : Elt_T → Elt_T) (g : Grid_T) : Grid_T :=
  { unique := g.unique,
    elts := fun i j => if i < 9 ∧ j < 9 then F (g.elts i j) else g.elts i j }

/-- Number of digits 1..9 whose flag is set in a cell. -/
def countValid (e : Elt_T) : Nat :=
  (List.range' 1 9).countP (fun d => decide (e.choices.num d ≠ 0))

/-- Some cell in `Pr` holds the value `d` and has `(i,j)` among its peers. -/
def hitBy (g0 : Grid_T) (Pr : Nat → Nat → Prop) (i j d : Nat) : Prop :=
  ∃ a b, Pr a b ∧ peer a b i j ∧ (g0.elts a b).val = d

/-- The state of the second loop of `sudoku_init_choices` started on the values
of `g0`, after the cells in `Pr` have been processed; `pre` tells whether the
filled cells were cleared before the loop started. -/
structure InitInv (g0 : Grid_T) (pre : Prop) (Pr : Nat → Nat → Prop) (g : Grid_T) : Prop where
  uniq : g.unique = 1
  outside : ∀ i j, ¬ (i < 9 ∧ j < 9) → g.elts i j = g0.elts i j
  vals : ∀ i j, (g.elts i j).val = (g0.elts i j).val
  zero : ∀ i j, i < 9 → j < 9 → (g.elts i j).choices.num 0 = 0
  high : ∀ i j k, i < 9 → j < 9 → 9 < k →
    (g.elts i j).choices.num k = (g0.elts i j).choices.num k
  filled : ∀ i j, i < 9 → j < 9 → (pre ∨ Pr i j) → (g0.elts i j).val ≠ 0 →
    (g.elts i j).choices.count = 0 ∧ ∀ d, 1 ≤ d → d ≤ 9 → (g.elts i j).choices.num d = 0
  unfilled : ∀ i j, i < 9 → j < 9 → ¬ ((pre ∨ Pr i j) ∧ (g0.elts i j).val ≠ 0) →
    (g.elts i j).choices.count = (countValid (g.elts i j) : Int) ∧
    ∀ d, 1 ≤ d → d ≤ 9 →
      (hitBy g0 Pr i j d → (g.elts i j).choices.num d = 0) ∧
      (¬ hitBy g0 Pr i j d → (g.elts i j).choices.num d = 1)

/-- No peer of `(i,j)` holds the value `d`. -/
def noPeerHas (g : Grid_T) (i j d : Nat) : Prop :=
  ∀ a < 9, ∀ b < 9, peer i j a b → grid_read_value g a b ≠ d

instance (g : Grid_T) (i j d : Nat) : Decidable (noPeerHas g i j d) := by
  unfold noPeerHas; infer_instance

/-- The spec's candidate set of an empty cell, `{1..9}` with count 9, as flags. -/
def specEmptyElt (e : Elt_T) : Elt_T :=
  { val := e.val,
    choices := { count := 9,
                 num := fun k => if k ≤ 9 then (if 1 ≤ k then 1 else 0) else e.choices.num k } }

/-- The spec's candidate set of a filled cell, `∅` with count 0, as flags. -/
def specFilledElt (e : Elt_T) : Elt_T :=
  { val := e.val,
    choices := { count := 0, num := fun k => if k ≤ 9 then 0 else e.choices.num k } }

/-- The two-phase `initializeCandidates` of the spec (section 4.3), written
from its words: first every empty cell gets candidate set `{1..9}` and count 9
and every filled cell gets `∅` and count 0; then `eliminate` is called for
every filled cell. -/
def initializeCandidates (g : Grid_T) : Grid_T :=
  let g1 := mapCells (fun e => if e.val = 0 then specEmptyElt e else specFilledElt e) g
  (List.range 9).foldl (fun g i =>
    (List.range 9).foldl (fun g j =>
      if grid_read_value g i j ≠ 0 then
        sudoku_eliminate_choice g i j (grid_read_value g i j)
      else g) g) g1

/-- Every one of the 81 cells has count 0. -/
def allCountsZero (g : Grid_T) : Prop :=
  ∀ i < 9, ∀ j < 9, grid_read_count g i j = 0

instance (g : Grid_T) : Decidable (allCountsZero g) := by
  unfold allCountsZero; infer_instance

/-- All 81 values of the grid are in 0..9. -/
def valuesInRange (g : Grid_T) : Prop :=
  ∀ i < 9, ∀ j < 9, grid_read_value g i j ≤ 9

/-- No cell of the grid is empty. -/
def allNonZero (g : Grid_T) : Prop :=
  ∀ i < 9, ∀ j < 9, grid_read_value g i j ≠ 0

/-- The `k`-th cell of row `i`. -/
def rowCell (i k : Nat) : Nat × Nat := (i, k)

/-- The `k`-th cell of column `j`. -/
def colCell (j k : Nat) : Nat × Nat := (k, j)

/-- The `k`-th cell of the 3x3 block number `b` (blocks counted from 0 in
row-major order). -/
def blockCell (b k : Nat) : Nat × Nat := (3 * (b / 3) + k / 3, 3 * (b % 3) + k % 3)

/-- Each digit 1..9 is the value of exactly one of the nine cells `cell 0`, ...,
`cell 8`. -/
def eachDigitOnce (g : Grid_T) (cell : Nat → Nat × Nat) : Prop :=
  ∀ d, 1 ≤ d → d ≤ 9 → ∃! k, k < 9 ∧ grid_read_value g (cell k).1 (cell k).2 = d

/-- Every row, every column and every 3x3 block contains each digit 1..9
exactly once. -/
def solvedGrid (g : Grid_T) : Prop :=
  ∀ b < 9, eachDigitOnce g (rowCell b) ∧ eachDigitOnce g (colCell b) ∧
    eachDigitOnce g (blockCell b)

/-- The grid with value 1 in every cell. -/
def allOnes : Grid_T :=
  { unique := 0,
    elts := fun _ _ => { val := 1, choices := { count := 0, num := fun _ => 0 } } }

/-- An empty 9x9 grid: every value is 0; the unique flag and the candidate data
are arbitrary. -/
def emptyGrid (u : Int) (ch : Nat → Nat → Choice_T) : Grid_T :=
  { unique := u, elts := fun i j => { val := 0, choices := ch i j } }

/-- A grid holding the value `f i j` in cell `(i,j)`, as `sudoku_read` leaves it:
the candidate data is not set yet. -/
def gridOfValues (f : Nat → Nat → Nat) : Grid_T :=
  { unique := 0,
    elts := fun i j => { val := f i j, choices := { count := 0, num := fun _ => 0 } } }

/-- A grid given by its nine rows. -/
def gridOfRows (rows : List (List Nat)) : Grid_T :=
  gridOfValues (fun i j => (rows.getD i []).getD j 0)

/-- The sequence 1, 2, ..., 9. -/
def digits : List Nat := [1, 2, 3, 4, 5, 6, 7, 8, 9]

/-- The grid whose row `i` is 1..9 rotated left by `3*i mod 9` positions. -/
def rotatedGrid : Grid_T :=
  gridOfRows ((List.range 9).map (fun i => digits.rotate (3 * i % 9)))

/-- The rows of the sample grid in the comment above `sudoku_read`. -/
def sampleRows : List (List Nat) :=
  [[1, 2, 3, 4, 5, 6, 7, 8, 9],
   [4, 5, 6, 7, 8, 9, 1, 2, 3],
   [7, 8, 9, 1, 2, 3, 4, 5, 6],
   [2, 3, 4, 5, 6, 7, 8, 9, 1],
   [5, 6, 7, 8, 9, 1, 2, 3, 4],
   [8, 9, 1, 2, 3, 4, 5, 6, 7],
   [3, 4, 5, 6, 7, 8, 9, 1, 2],
   [6, 7, 8, 9, 1, 2, 3, 4, 5],
   [9, 1, 2, 3, 4, 5, 6, 7, 8]]

/-- The sample grid in the comment above `sudoku_read`. -/
def sampleGrid : Grid_T := gridOfRows sampleRows

/-- The candidate invariant of one cell: its count is the number of digits 1..9
marked valid, and a filled cell has no valid digit and count 0. -/
def cellInv (e : Elt_T) : Prop :=
  e.choices.count = (countValid e : Int) ∧
  (e.val ≠ 0 → e.choices.count = 0 ∧ ∀ d, 1 ≤ d → d ≤ 9 → e.choices.num d = 0)

/-- The candidate invariant: in every cell the count is the number of digits
1..9 marked valid. -/
def candInv (g : Grid_T) : Prop :=
  ∀ i < 9, ∀ j < 9, grid_read_count g i j = (countValid (g.elts i j) : Int)

/-- The invariant of the working grid of `sudoku_solve`: in every cell the count
is the number of digits 1..9 marked valid, and a filled cell has no valid digit
and count 0. -/
def solveInv (g : Grid_T) : Prop :=
  ∀ i < 9, ∀ j < 9,
    grid_read_count g i j = (countValid (g.elts i j) : Int) ∧
    (grid_read_value g i j ≠ 0 →
      grid_read_count g i j = 0 ∧ ∀ d, 1 ≤ d → d ≤ 9 → grid_choice_is_valid g i j d = 0)

/-- What `sudoku_try_next` guarantees of a non-zero answer `n` for cell `(i,j)` of
grid `g`. -/
def goodChoice (g : Grid_T) (i j n : Nat) : Prop :=
  1 ≤ n ∧ n ≤ 9 ∧ i < 9 ∧ j < 9 ∧ grid_choice_is_valid g i j n ≠ 0

/-- The values of a grid are in 0..9 and it satisfies the invariant of the
working grid. -/
def workInv (g : Grid_T) : Prop := valuesInRange g ∧ solveInv g

/-- Every clue of `g0` (a non-zero value) is still in place in `g`. -/
def keepsClues (g0 g : Grid_T) : Prop :=
  ∀ i < 9, ∀ j < 9, grid_read_value g0 i j ≠ 0 → grid_read_value g i j = grid_read_value g0 i j

/-- Number of empty cells in row `i`. -/
def emptyInRow (g : Grid_T) (i : Nat) : Nat :=
  (List.range 9).countP (fun j => decide (grid_read_value g i j = 0))

/-- Number of non-zero cells among the 81, the quantity `81 - emptyCells(g)` that
`sudoku_generate` compares with `nelts`. -/
def filledCells (g : Grid_T) : Int := (81 : Int) - (emptyCells g : Int)

/-- The solver `sudoku_solve` with its nesting cut off: the first `d` levels
of invocations run the loop of `sudoku_solve`, and a call nested `d` levels deep is
answered by `cut` instead. -/
def sudoku_solve_limited (rnd : Nat → Nat) (cut : Nat → Nat → Grid_T → Option SolveResult) :
    Nat → Nat → Nat → Grid_T → Option SolveResult
  | 0, fuel, p, g => cut fuel p g
  | _ + 1, 0, _, _ => none
  | d + 1, fuel + 1, p, g =>
    sudoku_solve_loop (sudoku_solve_limited rnd cut d fuel) rnd (fuel + 1) p
      (sudoku_init_choices g) 0 0 false

/-- The sample grid with `(0,0)` and `(8,1)` emptied and `(0,1)` changed from 2 to
1.  No two cells conflict, and each of the two empty cells has all nine digits
among its peers. -/
def deadRows : List (List Nat) :=
  [[0, 1, 3, 4, 5, 6, 7, 8, 9],
   [4, 5, 6, 7, 8, 9, 1, 2, 3],
   [7, 8, 9, 1, 2, 3, 4, 5, 6],
   [2, 3, 4, 5, 6, 7, 8, 9, 1],
   [5, 6, 7, 8, 9, 1, 2, 3, 4],
   [8, 9, 1, 2, 3, 4, 5, 6, 7],
   [3, 4, 5, 6, 7, 8, 9, 1, 2],
   [6, 7, 8, 9, 1, 2, 3, 4, 5],
   [9, 0, 2, 3, 4, 5, 6, 7, 8]]

/-- The grid of `deadRows`, as `sudoku_read` builds it. -/
def deadGrid : Grid_T := gridOfRows deadRows

/-- Number of conflict lines that `check_row_errors` prints for row `i`. -/
def rowReports (g : Grid_T) (i : Nat) : Nat :=
  (check_row_errors g).2.countP (fun r => decide (r.2 = i))

/-- Number of pairs of columns `j < k` of row `i` that hold the same non-zero
value. -/
def equalPairs (g : Grid_T) (i : Nat) : Nat :=
  ((List.range 9).map (fun j => (List.range 9).countP (fun k =>
    decide (j < k ∧ grid_read_value g i j ≠ 0 ∧
      grid_read_value g i j = grid_read_value g i k)))).sum

/-- Cell `(i,j)` is non-empty and a later cell of row `i` holds the same value. -/
def hasLaterEqual (g : Grid_T) (i j : Nat) : Prop :=
  grid_read_value g i j ≠ 0 ∧ ∃ k < 9, j < k ∧ grid_read_value g i j = grid_read_value g i k

instance (g : Grid_T) (i j : Nat) : Decidable (hasLaterEqual g i j) := by
  unfold hasLaterEqual; infer_instance

/-- A grid whose row 0 starts with three fives, all other cells empty. -/
def threeFives : Grid_T :=
  gridOfValues (fun i j => if i = 0 ∧ j < 3 then 5 else 0)

/-! # Proofs -/

theorem foldl_range_inv {σ : Type} (f : σ → Nat → σ) (P : Nat → σ → Prop) (n : Nat) (s0 : σ)
    (h0 : P 0 s0) (hstep : ∀ k s, k < n → P k s → P (k + 1) (f s k)) :
    P n ((List.range n).foldl f s0) := by
  induction n with
  | zero => simpa using h0
  | succ m ih =>
    rw [List.range_succ, List.foldl_append]
    simp only [List.foldl_cons, List.foldl_nil]
    exact hstep m _ (Nat.lt_succ_self m)
      (ih (fun k s hk hP => hstep k s (Nat.lt_succ_of_lt hk) hP))

theorem foldl_range'_inv {σ : Type} (f : σ → Nat → σ) (P : Nat → σ → Prop) (a m : Nat) (s0 : σ)
    (h0 : P 0 s0) (hstep : ∀ k s, k < m → P k s → P (k + 1) (f s (a + k))) :
    P m ((List.range' a m).foldl f s0) := by
  rw [List.range'_eq_map_range, List.foldl_map]
  exact foldl_range_inv (fun s k => f s (a + k)) P m s0 h0 hstep

theorem Flag.congr_flag {s : CheckState} {P Q : Prop} (h : Flag s P) (hPQ : P ↔ Q) : Flag s Q := by
  unfold Flag at *
  rw [← hPQ]; exact h

theorem Flag.eq_one_iff {s : CheckState} {P : Prop} (h : Flag s P) : s.1 = 1 ↔ P := by
  unfold Flag at h
  rcases h with ⟨h1, h2⟩ | ⟨h1, h2⟩
  · simp [h1, h2]
  · simp [h1, h2]

theorem Flag.eq_zero_iff {s : CheckState} {P : Prop} (h : Flag s P) : s.1 = 0 ↔ ¬ P := by
  unfold Flag at h
  rcases h with ⟨h1, h2⟩ | ⟨h1, h2⟩
  · simp [h1, h2]
  · simp [h1, h2]

theorem scan_flag (hit : Nat → Bool) (rep : Nat × Nat) (ks : List Nat) (s : CheckState)
    (P : Prop) (h : Flag s P) : Flag (scan hit rep ks s) (P ∨ ∃ k ∈ ks, hit k = true) := by
  induction ks with
  | nil => simpa [scan] using h
  | cons k ks ih =>
    unfold scan
    by_cases hk : hit k = true
    · rw [if_pos hk]
      exact Or.inl ⟨rfl, Or.inr ⟨k, List.mem_cons_self _ _, hk⟩⟩
    · rw [if_neg hk]
      refine ih.congr_flag ?_
      constructor
      · rintro (hP | ⟨k', hk', hh⟩)
        · exact Or.inl hP
        · exact Or.inr ⟨k', List.mem_cons_of_mem _ hk', hh⟩
      · rintro (hP | ⟨k', hk', hh⟩)
        · exact Or.inl hP
        · rcases List.mem_cons.1 hk' with rfl | hmem
          · exact absurd hh hk
          · exact Or.inr ⟨k', hmem, hh⟩

theorem check_row_inner_eq_scan (g : Grid_T) (i j : Nat) (ks : List Nat) (s : CheckState) :
    check_row_inner g i j ks s =
      scan (fun k => decide (grid_read_value g i j = grid_read_value g i k))
        (grid_read_value g i j, i) ks s := by
  induction ks with
  | nil => rfl
  | cons k ks ih => simp [check_row_inner, scan, ih]

theorem check_col_inner_eq_scan (g : Grid_T) (i j : Nat) (ks : List Nat) (s : CheckState) :
    check_col_inner g i j ks s =
      scan (fun k => decide (grid_read_value g i j = grid_read_value g k j))
        (grid_read_value g i j, j) ks s := by
  induction ks with
  | nil => rfl
  | cons k ks ih => simp [check_col_inner, scan, ih]

theorem check_subgrid_inner_eq_scan (g : Grid_T) (i j b r : Nat) (cs : List Nat)
    (s : CheckState) :
    check_subgrid_inner g i j b r cs s =
      scan (fun c => decide (grid_read_value g r c ≠ 0 ∧ (r ≠ i ∨ c ≠ j) ∧
          grid_read_value g i j = grid_read_value g r c))
        (grid_read_value g i j, b) cs s := by
  induction cs with
  | nil => rfl
  | cons c cs ih =>
    unfold check_subgrid_inner scan
    by_cases h0 : grid_read_value g r c = 0
    · simp [h0, ih]
    · by_cases h1 : (r ≠ i ∨ c ≠ j) ∧ grid_read_value g i j = grid_read_value g r c
      · simp [h0, h1]
      · rw [if_neg h0, if_neg h1, ih]
        have : ¬ (grid_read_value g r c ≠ 0 ∧ (r ≠ i ∨ c ≠ j) ∧
          grid_read_value g i j = grid_read_value g r c) := fun h => h1 h.2
        simp [this]

theorem flag_foldl {α : Type} (f : CheckState → α → CheckState) (Q : α → Prop) (L : List α)
    (hf : ∀ x ∈ L, ∀ s P, Flag s P → Flag (f s x) (P ∨ Q x)) (s : CheckState) (P : Prop)
    (h : Flag s P) : Flag (L.foldl f s) (P ∨ ∃ x ∈ L, Q x) := by
  induction L generalizing s P with
  | nil => simpa using h
  | cons x xs ih =>
    rw [List.foldl_cons]
    refine (ih (fun y hy => hf y (List.mem_cons_of_mem _ hy)) _ _
      (hf x (List.mem_cons_self _ _) s P h)).congr_flag ?_
    constructor
    · rintro ((hP | hQ) | ⟨y, hy, hQ⟩)
      · exact Or.inl hP
      · exact Or.inr ⟨x, List.mem_cons_self _ _, hQ⟩
      · exact Or.inr ⟨y, List.mem_cons_of_mem _ hy, hQ⟩
    · rintro (hP | ⟨y, hy, hQ⟩)
      · exact Or.inl (Or.inl hP)
      · rcases List.mem_cons.1 hy with rfl | hmem
        · exact Or.inl (Or.inr hQ)
        · exact Or.inr ⟨y, hmem, hQ⟩

theorem flag_init (P : Prop) (h : ¬ P) : Flag ((0, []) : CheckState) P := Or.inr ⟨rfl, h⟩

theorem check_row_errors_flag (g : Grid_T) : Flag (check_row_errors g) (rowConflict g) := by
  unfold check_row_errors
  refine (flag_foldl _ (fun i => ∃ j < 9, ∃ k < 9, j < k ∧ grid_read_value g i j ≠ 0 ∧
    grid_read_value g i j = grid_read_value g i k) _ ?_ _ False (flag_init _ id)).congr_flag ?_
  · intro i _ s P hs
    refine (flag_foldl _ (fun j => ∃ k < 9, j < k ∧ grid_read_value g i j ≠ 0 ∧
      grid_read_value g i j = grid_read_value g i k) _ ?_ _ P hs).congr_flag ?_
    · intro j hj s P hs
      rw [List.mem_range] at hj
      by_cases h0 : grid_read_value g i j = 0
      · rw [if_pos h0]
        exact hs.congr_flag ⟨Or.inl, fun h => h.elim id (fun ⟨_, _, _, hne, _⟩ => absurd h0 hne)⟩
      · rw [if_neg h0, check_row_inner_eq_scan]
        refine (scan_flag _ _ _ _ _ hs).congr_flag (or_congr Iff.rfl ?_)
        constructor
        · rintro ⟨k, hk, hh⟩
          rw [List.mem_range'_1] at hk
          exact ⟨k, by omega, by omega, h0, by simpa using hh⟩
        · rintro ⟨k, hk, hjk, _, he⟩
          exact ⟨k, by rw [List.mem_range'_1]; omega, by simpa using he⟩
    · simp only [List.mem_range]
  · simp only [List.mem_range, false_or, rowConflict]

theorem check_col_errors_flag (g : Grid_T) : Flag (check_col_errors g) (colConflict g) := by
  unfold check_col_errors
  refine (flag_foldl _ (fun j => ∃ i < 9, ∃ k < 9, i < k ∧ grid_read_value g i j ≠ 0 ∧
    grid_read_value g i j = grid_read_value g k j) _ ?_ _ False (flag_init _ id)).congr_flag ?_
  · intro j _ s P hs
    refine (flag_foldl _ (fun i => ∃ k < 9, i < k ∧ grid_read_value g i j ≠ 0 ∧
      grid_read_value g i j = grid_read_value g k j) _ ?_ _ P hs).congr_flag ?_
    · intro i hi s P hs
      rw [List.mem_range] at hi
      by_cases h0 : grid_read_value g i j = 0
      · rw [if_pos h0]
        exact hs.congr_flag ⟨Or.inl, fun h => h.elim id (fun ⟨_, _, _, hne, _⟩ => absurd h0 hne)⟩
      · rw [if_neg h0, check_col_inner_eq_scan]
        refine (scan_flag _ _ _ _ _ hs).congr_flag (or_congr Iff.rfl ?_)
        constructor
        · rintro ⟨k, hk, hh⟩
          rw [List.mem_range'_1] at hk
          exact ⟨k, by omega, by omega, h0, by simpa using hh⟩
        · rintro ⟨k, hk, hjk, _, he⟩
          exact ⟨k, by rw [List.mem_range'_1]; omega, by simpa using he⟩
    · simp only [List.mem_range]
  · simp only [List.mem_range, false_or, colConflict]

theorem block_start (i j : Nat) (hi : i < 9) (hj : j < 9) :
    blockRow (findBlock i j) = 3 * (i / 3) ∧ blockCol (findBlock i j) = 3 * (j / 3) := by
  interval_cases i <;> interval_cases j <;> exact ⟨rfl, rfl⟩

theorem check_subgrid_errors_flag (g : Grid_T) :
    Flag (check_subgrid_errors g) (blockConflict g) := by
  unfold check_subgrid_errors
  refine (flag_foldl _ (fun i => ∃ j < 9, ∃ r < 9, ∃ c < 9, r / 3 = i / 3 ∧ c / 3 = j / 3 ∧
    (r ≠ i ∨ c ≠ j) ∧ grid_read_value g r c ≠ 0 ∧
    grid_read_value g i j = grid_read_value g r c) _ ?_ _ False (flag_init _ id)).congr_flag ?_
  · intro i hi s P hs
    rw [List.mem_range] at hi
    refine (flag_foldl _ (fun j => ∃ r < 9, ∃ c < 9, r / 3 = i / 3 ∧ c / 3 = j / 3 ∧
      (r ≠ i ∨ c ≠ j) ∧ grid_read_value g r c ≠ 0 ∧
      grid_read_value g i j = grid_read_value g r c) _ ?_ _ P hs).congr_flag ?_
    · intro j hj s P hs
      rw [List.mem_range] at hj
      obtain ⟨hbr, hbc⟩ := block_start i j hi hj
      simp only [hbr, hbc]
      refine (flag_foldl _ (fun r => ∃ c < 9, r / 3 = i / 3 ∧ c / 3 = j / 3 ∧
        (r ≠ i ∨ c ≠ j) ∧ grid_read_value g r c ≠ 0 ∧
        grid_read_value g i j = grid_read_value g r c) _ ?_ _ P hs).congr_flag
          (or_congr Iff.rfl ?_)
      · intro r hr s P hs
        rw [List.mem_range'_1] at hr
        rw [check_subgrid_inner_eq_scan]
        refine (scan_flag _ _ _ _ _ hs).congr_flag (or_congr Iff.rfl ?_)
        constructor
        · rintro ⟨c, hc, hh⟩
          rw [List.mem_range'_1] at hc
          simp only [decide_eq_true_eq] at hh
          exact ⟨c, by omega, by omega, by omega, hh.2.1, hh.1, hh.2.2⟩
        · rintro ⟨c, hc, _, hcj, hne, h0, he⟩
          refine ⟨c, by rw [List.mem_range'_1]; omega, ?_⟩
          simp only [decide_eq_true_eq]
          exact ⟨h0, hne, he⟩
      · constructor
        · rintro ⟨r, hr, h⟩
          rw [List.mem_range'_1] at hr
          exact ⟨r, by omega, h⟩
        · rintro ⟨r, hr, c, hc, hri, h⟩
          exact ⟨r, by rw [List.mem_range'_1]; omega, c, hc, hri, h⟩
    · simp only [List.mem_range]
  · simp only [List.mem_range, false_or, blockConflict]

theorem conflict_iff (g : Grid_T) :
    conflict g ↔ rowConflict g ∨ colConflict g ∨ blockConflict g := by
  constructor
  · rintro ⟨r, hr, c, hc, i, hi, j, hj, ⟨_, _, hne, hp⟩, h0, he⟩
    rcases hp with rfl | rfl | ⟨h1, h2⟩
    · have hjc : j ≠ c := by omega
      rcases Nat.lt_or_gt_of_ne hjc with hlt | hgt
      · exact Or.inl ⟨i, hi, j, hj, c, hc, hlt, by rw [← he]; exact h0, he.symm⟩
      · exact Or.inl ⟨i, hi, c, hc, j, hj, hgt, h0, he⟩
    · have hir : i ≠ r := by omega
      rcases Nat.lt_or_gt_of_ne hir with hlt | hgt
      · exact Or.inr (Or.inl ⟨j, hj, i, hi, r, hr, hlt, by rw [← he]; exact h0, he.symm⟩)
      · exact Or.inr (Or.inl ⟨j, hj, r, hr, i, hi, hgt, h0, he⟩)
    · exact Or.inr (Or.inr ⟨i, hi, j, hj, r, hr, c, hc, h1.symm, h2.symm, by omega, h0,
        he.symm⟩)
  · rintro (⟨i, hi, j, hj, k, hk, hjk, h0, he⟩ | ⟨j, hj, i, hi, k, hk, hik, h0, he⟩ |
      ⟨i, hi, j, hj, r, hr, c, hc, h1, h2, hne, h0, he⟩)
    · exact ⟨i, hi, j, hj, i, hi, k, hk, ⟨hi, hk, Or.inr (by omega), Or.inl rfl⟩, h0, he⟩
    · exact ⟨i, hi, j, hj, k, hk, j, hj, ⟨hk, hj, Or.inl (by omega), Or.inr (Or.inl rfl)⟩,
        h0, he⟩
    · exact ⟨r, hr, c, hc, i, hi, j, hj,
        ⟨hi, hj, by omega, Or.inr (Or.inr ⟨h1.symm, h2.symm⟩)⟩, h0, he.symm⟩

theorem sudoku_is_correct_eq (g : Grid_T) :
    sudoku_is_correct g = if (check_row_errors g).1 = 0 ∧ (check_col_errors g).1 = 0 ∧
      (check_subgrid_errors g).1 = 0 then 1 else 0 := rfl

theorem sudoku_is_correct_iff (g : Grid_T) : sudoku_is_correct g = 1 ↔ ¬ conflict g := by
  have hr := (check_row_errors_flag g).eq_zero_iff
  have hc := (check_col_errors_flag g).eq_zero_iff
  have hb := (check_subgrid_errors_flag g).eq_zero_iff
  rw [sudoku_is_correct_eq, conflict_iff]
  constructor
  · intro h
    by_cases hh : (check_row_errors g).1 = 0 ∧ (check_col_errors g).1 = 0 ∧
        (check_subgrid_errors g).1 = 0
    · rintro (h1 | h2 | h3)
      · exact hr.1 hh.1 h1
      · exact hc.1 hh.2.1 h2
      · exact hb.1 hh.2.2 h3
    · rw [if_neg hh] at h
      exact absurd h (by decide)
  · intro h
    rw [if_pos ⟨hr.2 (fun h1 => h (Or.inl h1)), hc.2 (fun h2 => h (Or.inr (Or.inl h2))),
      hb.2 (fun h3 => h (Or.inr (Or.inr h3)))⟩]

theorem sudoku_is_correct_zero_or_one (g : Grid_T) :
    sudoku_is_correct g = 0 ∨ sudoku_is_correct g = 1 := by
  rw [sudoku_is_correct_eq]
  split <;> simp

/-- C1: `sudoku_is_correct` returns 1 exactly when no non-empty cell has a peer
(another cell of its row, column or 3x3 block) with the same value, and 0
otherwise; a grid whose cells are all empty is judged correct; and a grid in
which two cells of one row hold the same non-zero value is judged incorrect,
with `check_row_errors` returning 1. -/
theorem C1_is_correct_iff_no_conflict (g : Grid_T) :
    (sudoku_is_correct g = 1 ↔ ¬ conflict g) ∧
    (sudoku_is_correct g = 0 ↔ conflict g) ∧
    ((∀ i < 9, ∀ j < 9, grid_read_value g i j = 0) → sudoku_is_correct g = 1) ∧
    (∀ i < 9, ∀ j < 9, ∀ k < 9, j ≠ k → grid_read_value g i j ≠ 0 →
      grid_read_value g i j = grid_read_value g i k →
      sudoku_is_correct g = 0 ∧ (check_row_errors g).1 = 1) := by
  have hiff := sudoku_is_correct_iff g
  have h01 := sudoku_is_correct_zero_or_one g
  have hzero : sudoku_is_correct g = 0 ↔ conflict g := by
    constructor
    · intro h
      by_contra hc
      rw [hiff.2 hc] at h
      exact absurd h (by decide)
    · intro hc
      rcases h01 with h | h
      · exact h
      · exact absurd hc (hiff.1 h)
  refine ⟨hiff, hzero, ?_, ?_⟩
  · intro hall
    refine hiff.2 ?_
    rintro ⟨r, hr, c, hc, _, _, _, _, _, h0, _⟩
    exact h0 (hall r hr c hc)
  · intro i hi j hj k hk hjk h0 he
    have hrow : rowConflict g := by
      rcases Nat.lt_or_gt_of_ne hjk with hlt | hgt
      · exact ⟨i, hi, j, hj, k, hk, hlt, h0, he⟩
      · exact ⟨i, hi, k, hk, j, hj, hgt, by rw [← he]; exact h0, he.symm⟩
    exact ⟨hzero.2 ((conflict_iff g).2 (Or.inl hrow)),
      (check_row_errors_flag g).eq_one_iff.2 hrow⟩

theorem C1_is_correct_iff_no_conflict_witness :
    sudoku_is_correct twoFives = 0 ∧ (check_row_errors twoFives).1 = 1 :=
  (C1_is_correct_iff_no_conflict twoFives).2.2.2 0 (by decide) 0 (by decide) 1 (by decide)
    (by decide) (by decide) (by decide)

theorem setElt_elts (g : Grid_T) (i j : Nat) (e : Elt_T) (a b : Nat) :
    (setElt g i j e).elts a b = if a = i ∧ b = j then e else g.elts a b := rfl

theorem setElt_unique (g : Grid_T) (i j : Nat) (e : Elt_T) : (setElt g i j e).unique = g.unique :=
  rfl

theorem Grid_T.ext_grid {g h : Grid_T} (hu : g.unique = h.unique)
    (he : ∀ i j, g.elts i j = h.elts i j) : g = h := by
  cases g; cases h
  simp only [Grid_T.mk.injEq]
  exact ⟨hu, funext fun i => funext fun j => he i j⟩

theorem grid_remove_choice_eq (g : Grid_T) (i j n : Nat) :
    grid_remove_choice g i j n = setElt g i j (removeElt n (g.elts i j)) := by
  unfold grid_remove_choice grid_choice_is_valid removeElt
  by_cases h : (g.elts i j).choices.num n ≠ 0
  · rw [if_pos h, if_pos h]
    refine Grid_T.ext_grid rfl (fun a b => ?_)
    simp only [grid_dec_count, grid_clear_choice, setElt_elts]
    by_cases hab : a = i ∧ b = j
    · simp [hab]
    · simp [hab]
  · rw [if_neg h, if_neg h]
    refine Grid_T.ext_grid rfl (fun a b => ?_)
    simp only [setElt_elts]
    by_cases hab : a = i ∧ b = j
    · rw [if_pos hab, hab.1, hab.2]
    · rw [if_neg hab]

theorem removeElt_val (n : Nat) (e : Elt_T) : (removeElt n e).val = e.val := by
  unfold removeElt; split <;> rfl

theorem removeElt_num_self (n : Nat) (e : Elt_T) : (removeElt n e).choices.num n = 0 := by
  unfold removeElt
  by_cases h : e.choices.num n ≠ 0
  · rw [if_pos h]; simp
  · rw [if_neg h]; simpa using h

theorem removeElt_num_other (n k : Nat) (e : Elt_T) (hk : k ≠ n) :
    (removeElt n e).choices.num k = e.choices.num k := by
  unfold removeElt
  by_cases h : e.choices.num n ≠ 0
  · rw [if_pos h]; simp [hk]
  · rw [if_neg h]

theorem removeElt_count (n : Nat) (e : Elt_T) :
    (removeElt n e).choices.count =
      if e.choices.num n ≠ 0 then e.choices.count - 1 else e.choices.count := by
  unfold removeElt
  by_cases h : e.choices.num n ≠ 0
  · rw [if_pos h, if_pos h]
  · rw [if_neg h, if_neg h]

theorem removeElt_of_invalid (n : Nat) (e : Elt_T) (h : e.choices.num n = 0) :
    removeElt n e = e := by
  unfold removeElt
  rw [if_neg (by simpa using h)]

theorem removeElt_idem (n : Nat) (e : Elt_T) : removeElt n (removeElt n e) = removeElt n e :=
  removeElt_of_invalid n _ (removeElt_num_self n e)

theorem Touched.congr_touched {n : Nat} {S S' : Nat → Nat → Prop} {g0 g : Grid_T}
    (h : Touched n S g0 g) (hS : ∀ i j, S i j ↔ S' i j) : Touched n S' g0 g :=
  ⟨h.1, fun i j => ⟨fun hs => (h.2 i j).1 ((hS i j).2 hs),
    fun hs => (h.2 i j).2 (fun hs' => hs ((hS i j).1 hs'))⟩⟩

theorem Touched.refl (n : Nat) (g : Grid_T) : Touched n (fun _ _ => False) g g :=
  ⟨rfl, fun _ _ => ⟨fun h => h.elim, fun _ => rfl⟩⟩

theorem Touched.remove {n : Nat} {S : Nat → Nat → Prop} {g0 g : Grid_T}
    (h : Touched n S g0 g) (a b : Nat) :
    Touched n (fun i j => S i j ∨ (i = a ∧ j = b)) g0 (grid_remove_choice g a b n) := by
  rw [grid_remove_choice_eq]
  refine ⟨h.1, fun i j => ?_⟩
  rw [setElt_elts]
  by_cases hab : i = a ∧ j = b
  · rw [if_pos hab]
    obtain ⟨rfl, rfl⟩ := hab
    refine ⟨fun _ => ?_, fun hn => absurd (Or.inr ⟨rfl, rfl⟩) hn⟩
    by_cases hs : S i j
    · rw [(h.2 i j).1 hs, removeElt_idem]
    · rw [(h.2 i j).2 hs]
  · rw [if_neg hab]
    refine ⟨fun hs => ?_, fun hn => (h.2 i j).2 (fun hs => hn (Or.inl hs))⟩
    rcases hs with hs | hs
    · exact (h.2 i j).1 hs
    · exact absurd hs hab

theorem Touched.foldl {α : Type} {n : Nat} {g0 : Grid_T} (f : Grid_T → α → Grid_T)
    (T : α → Nat → Nat → Prop) (L : List α)
    (hf : ∀ x ∈ L, ∀ g S, Touched n S g0 g → Touched n (fun i j => S i j ∨ T x i j) g0 (f g x))
    (g : Grid_T) (S : Nat → Nat → Prop) (h : Touched n S g0 g) :
    Touched n (fun i j => S i j ∨ ∃ x ∈ L, T x i j) g0 (L.foldl f g) := by
  induction L generalizing g S with
  | nil => exact h.congr_touched (by simp)
  | cons x xs ih =>
    rw [List.foldl_cons]
    refine (ih (fun y hy => hf y (List.mem_cons_of_mem _ hy)) _ _
      (hf x (List.mem_cons_self _ _) g S h)).congr_touched ?_
    intro i j
    constructor
    · rintro ((hP | hQ) | ⟨y, hy, hQ⟩)
      · exact Or.inl hP
      · exact Or.inr ⟨x, List.mem_cons_self _ _, hQ⟩
      · exact Or.inr ⟨y, List.mem_cons_of_mem _ hy, hQ⟩
    · rintro (hP | ⟨y, hy, hQ⟩)
      · exact Or.inl (Or.inl hP)
      · rcases List.mem_cons.1 hy with rfl | hmem
        · exact Or.inl (Or.inr hQ)
        · exact Or.inr ⟨y, hmem, hQ⟩

theorem sudoku_eliminate_choice_touched (g : Grid_T) (r c n : Nat) (hr : r < 9) (hc : c < 9) :
    Touched n (peer r c) g (sudoku_eliminate_choice g r c n) := by
  unfold sudoku_eliminate_choice
  obtain ⟨hbr, hbc⟩ := block_start r c hr hc
  simp only [hbr, hbc]
  have h1 := Touched.foldl (fun g i =>
      let g := if i ≠ c then grid_remove_choice g r i n else g
      if i ≠ r then grid_remove_choice g i c n else g)
    (fun x i j => (x ≠ c ∧ i = r ∧ j = x) ∨ (x ≠ r ∧ i = x ∧ j = c)) (List.range 9)
    (by
      intro x _ g' S hg'
      by_cases hxc : x ≠ c <;> by_cases hxr : x ≠ r
      · simp only [if_pos hxc, if_pos hxr]
        exact ((hg'.remove r x).remove x c).congr_touched (by intro i j; simp [hxc, hxr]; tauto)
      · simp only [if_pos hxc, if_neg hxr]
        exact (hg'.remove r x).congr_touched (by intro i j; simp [hxc, hxr])
      · simp only [if_neg hxc, if_pos hxr]
        exact (hg'.remove x c).congr_touched (by intro i j; simp [hxc, hxr])
      · simp only [if_neg hxc, if_neg hxr]
        exact hg'.congr_touched (by intro i j; simp [hxc, hxr]))
    g _ (Touched.refl n g)
  have h2 := Touched.foldl (fun g i =>
      (List.range' (3 * (c / 3)) 3).foldl (fun g j =>
        if i ≠ r ∨ j ≠ c then grid_remove_choice g i j n else g) g)
    (fun x i j => ∃ y ∈ List.range' (3 * (c / 3)) 3, (x ≠ r ∨ y ≠ c) ∧ i = x ∧ j = y)
    (List.range' (3 * (r / 3)) 3)
    (by
      intro x _ g' S hg'
      refine Touched.foldl _ (fun y i j => (x ≠ r ∨ y ≠ c) ∧ i = x ∧ j = y) _ ?_ g' S hg'
      intro y _ g'' S' hg''
      by_cases hxy : x ≠ r ∨ y ≠ c
      · rw [if_pos hxy]
        exact (hg''.remove x y).congr_touched (by intro i j; simp [hxy])
      · rw [if_neg hxy]
        exact hg''.congr_touched (by intro i j; simp [hxy]))
    _ _ h1
  refine h2.congr_touched ?_
  intro i j
  simp only [List.mem_range, List.mem_range'_1, false_or, peer]
  constructor
  · rintro (⟨x, hx, (⟨hq, rfl, rfl⟩ | ⟨hq, rfl, rfl⟩)⟩ | ⟨x, hx, y, hy, hne, rfl, rfl⟩)
    · exact ⟨hr, hx, Or.inr hq, Or.inl rfl⟩
    · exact ⟨hx, hc, Or.inl hq, Or.inr (Or.inl rfl)⟩
    · exact ⟨by omega, by omega, hne, Or.inr (Or.inr ⟨by omega, by omega⟩)⟩
  · rintro ⟨hi, hj, hne, (rfl | rfl | ⟨hq1, hq2⟩)⟩
    · exact Or.inl ⟨j, hj, Or.inl ⟨by omega, rfl, rfl⟩⟩
    · exact Or.inl ⟨i, hi, Or.inr ⟨by omega, rfl, rfl⟩⟩
    · exact Or.inr ⟨i, by omega, j, by omega, hne, rfl, rfl⟩

theorem peerCount_eq (r c : Nat) (hr : r < 9) (hc : c < 9) : peerCount r c = 20 := by
  interval_cases r <;> interval_cases c <;> rfl

/-- C6: for a cell `(r,c)` of the grid, `sudoku_eliminate_choice g r c n`
(1) leaves `n` invalid in every peer of `(r,c)`, of which there are 20;
(2) lowers the count of a peer by exactly 1 when `n` was valid there before and
leaves it unchanged otherwise (also for the block cells that both loops visit);
(3) leaves the cell `(r,c)`, every non-peer cell, every flag of a digit other
than `n`, every value and the unique flag unchanged. -/
theorem C6_eliminate_choice_effect (g : Grid_T) (r c n : Nat) (hr : r < 9) (hc : c < 9) :
    (∀ i j, peer r c i j → grid_choice_is_valid (sudoku_eliminate_choice g r c n) i j n = 0) ∧
    peerCount r c = 20 ∧
    (∀ i j, peer r c i j → grid_read_count (sudoku_eliminate_choice g r c n) i j =
      if grid_choice_is_valid g i j n ≠ 0 then grid_read_count g i j - 1
      else grid_read_count g i j) ∧
    (sudoku_eliminate_choice g r c n).elts r c = g.elts r c ∧
    (∀ i j, ¬ peer r c i j → (sudoku_eliminate_choice g r c n).elts i j = g.elts i j) ∧
    (∀ i j k, k ≠ n → grid_choice_is_valid (sudoku_eliminate_choice g r c n) i j k =
      grid_choice_is_valid g i j k) ∧
    (∀ i j, grid_read_value (sudoku_eliminate_choice g r c n) i j = grid_read_value g i j) ∧
    grid_read_unique (sudoku_eliminate_choice g r c n) = grid_read_unique g := by
  have ht := sudoku_eliminate_choice_touched g r c n hr hc
  have hself : ¬ peer r c r c := fun h => h.2.2.1.elim (fun h => h rfl) (fun h => h rfl)
  refine ⟨?_, peerCount_eq r c hr hc, ?_, (ht.2 r c).2 hself, fun i j h => (ht.2 i j).2 h,
    ?_, ?_, ht.1⟩
  · intro i j hp
    unfold grid_choice_is_valid
    rw [(ht.2 i j).1 hp, removeElt_num_self]
  · intro i j hp
    unfold grid_read_count grid_choice_is_valid
    rw [(ht.2 i j).1 hp, removeElt_count]
  · intro i j k hk
    unfold grid_choice_is_valid
    by_cases hp : peer r c i j
    · rw [(ht.2 i j).1 hp, removeElt_num_other n k _ hk]
    · rw [(ht.2 i j).2 hp]
  · intro i j
    unfold grid_read_value
    by_cases hp : peer r c i j
    · rw [(ht.2 i j).1 hp, removeElt_val]
    · rw [(ht.2 i j).2 hp]

theorem C6_eliminate_choice_effect_witness :
    grid_choice_is_valid (sudoku_eliminate_choice fullChoices 4 4 5) 3 3 5 = 0 ∧
    grid_read_count (sudoku_eliminate_choice fullChoices 4 4 5) 3 3 =
      (if grid_choice_is_valid fullChoices 3 3 5 ≠ 0 then grid_read_count fullChoices 3 3 - 1
       else grid_read_count fullChoices 3 3) :=
  ⟨(C6_eliminate_choice_effect fullChoices 4 4 5 (by decide) (by decide)).1 3 3 (by decide),
   (C6_eliminate_choice_effect fullChoices 4 4 5 (by decide) (by decide)).2.2.1 3 3
     (by decide)⟩

/-- C8: `sudoku_update_choice g i j n` returns the count that cell `(i,j)` had
before the call; afterwards `n` is not valid for `(i,j)`, the count of `(i,j)` is
one less than before when `n` was valid and the same otherwise, a second
application changes nothing more, and no other cell, no value, no flag of
another digit and not the unique flag is changed. -/
theorem C8_update_choice_effect (g : Grid_T) (i j n : Nat) :
    (sudoku_update_choice g i j n).1 = grid_read_count g i j ∧
    grid_choice_is_valid (sudoku_update_choice g i j n).2 i j n = 0 ∧
    grid_read_count (sudoku_update_choice g i j n).2 i j =
      (if grid_choice_is_valid g i j n ≠ 0 then grid_read_count g i j - 1
       else grid_read_count g i j) ∧
    (sudoku_update_choice (sudoku_update_choice g i j n).2 i j n).2 =
      (sudoku_update_choice g i j n).2 ∧
    (∀ a b, a ≠ i ∨ b ≠ j →
      (sudoku_update_choice g i j n).2.elts a b = g.elts a b) ∧
    (∀ a b, grid_read_value (sudoku_update_choice g i j n).2 a b = grid_read_value g a b) ∧
    (∀ a b k, k ≠ n → grid_choice_is_valid (sudoku_update_choice g i j n).2 a b k =
      grid_choice_is_valid g a b k) ∧
    grid_read_unique (sudoku_update_choice g i j n).2 = grid_read_unique g := by
  have hcell : ∀ a b, (grid_remove_choice g i j n).elts a b =
      if a = i ∧ b = j then removeElt n (g.elts i j) else g.elts a b := by
    intro a b
    rw [grid_remove_choice_eq, setElt_elts]
  refine ⟨rfl, ?_, ?_, ?_, ?_, ?_, ?_, ?_⟩
  · show ((grid_remove_choice g i j n).elts i j).choices.num n = 0
    rw [hcell, if_pos ⟨rfl, rfl⟩, removeElt_num_self]
  · show ((grid_remove_choice g i j n).elts i j).choices.count = _
    rw [hcell, if_pos ⟨rfl, rfl⟩, removeElt_count]
    rfl
  · show grid_remove_choice (grid_remove_choice g i j n) i j n = grid_remove_choice g i j n
    refine Grid_T.ext_grid ?_ (fun a b => ?_)
    · rw [grid_remove_choice_eq, grid_remove_choice_eq]; rfl
    · rw [grid_remove_choice_eq (grid_remove_choice g i j n), setElt_elts]
      by_cases hab : a = i ∧ b = j
      · rw [if_pos hab, hcell i j, hcell a b, if_pos hab, if_pos ⟨rfl, rfl⟩, removeElt_idem]
      · rw [if_neg hab]
  · intro a b hab
    show (grid_remove_choice g i j n).elts a b = g.elts a b
    rw [hcell, if_neg (by tauto)]
  · intro a b
    show ((grid_remove_choice g i j n).elts a b).val = (g.elts a b).val
    rw [hcell]
    by_cases hab : a = i ∧ b = j
    · rw [if_pos hab, removeElt_val, hab.1, hab.2]
    · rw [if_neg hab]
  · intro a b k hk
    show ((grid_remove_choice g i j n).elts a b).choices.num k = (g.elts a b).choices.num k
    rw [hcell]
    by_cases hab : a = i ∧ b = j
    · rw [if_pos hab, removeElt_num_other n k _ hk, hab.1, hab.2]
    · rw [if_neg hab]
  · show (grid_remove_choice g i j n).unique = g.unique
    rw [grid_remove_choice_eq]; rfl

theorem C8_update_choice_effect_witness :
    grid_read_value (sudoku_update_choice fullChoices 2 3 7).2 2 3 =
      grid_read_value fullChoices 2 3 ∧
    grid_choice_is_valid (sudoku_update_choice fullChoices 2 3 7).2 2 3 4 =
      grid_choice_is_valid fullChoices 2 3 4 :=
  ⟨(C8_update_choice_effect fullChoices 2 3 7).2.2.2.2.2.1 2 3,
   (C8_update_choice_effect fullChoices 2 3 7).2.2.2.2.2.2.1 2 3 4 (by decide)⟩

theorem setElt_setElt (g : Grid_T) (i j : Nat) (e e' : Elt_T) :
    setElt (setElt g i j e) i j e' = setElt g i j e' := by
  refine Grid_T.ext_grid rfl (fun a b => ?_)
  simp only [setElt_elts]
  split <;> rfl

theorem setElt_elts_self (g : Grid_T) (i j : Nat) (e : Elt_T) : (setElt g i j e).elts i j = e := by
  rw [setElt_elts, if_pos ⟨rfl, rfl⟩]

theorem foldl_setElt {α : Type} (F : α → Elt_T → Elt_T) (L : List α) (g : Grid_T) (i j : Nat)
    (e : Elt_T) :
    L.foldl (fun g r => setElt g i j (F r (g.elts i j))) (setElt g i j e) =
      setElt g i j (L.foldl (fun e r => F r e) e) := by
  induction L generalizing e with
  | nil => rfl
  | cons x xs ih =>
    rw [List.foldl_cons, List.foldl_cons, setElt_elts_self, setElt_setElt, ih]

theorem range'_one_nine : List.range' 1 9 = [1, 2, 3, 4, 5, 6, 7, 8, 9] := rfl

theorem init_first_body (g : Grid_T) (i j : Nat) :
    (List.range' 1 9).foldl (fun g r => grid_set_choice g i j r)
      (grid_clear_choice (grid_set_count g i j) i j 0) = setElt g i j (fullElt (g.elts i j)) := by
  have h := foldl_setElt (fun (r : Nat) (e : Elt_T) =>
    ({ e with choices := { e.choices with num := fun k => if k = r then 1 else e.choices.num k } }
      : Elt_T)) (List.range' 1 9) g i j
    { val := (g.elts i j).val,
      choices := { count := 9, num := fun k => if k = 0 then 0 else (g.elts i j).choices.num k } }
  have h0 : grid_clear_choice (grid_set_count g i j) i j 0 = setElt g i j
      { val := (g.elts i j).val,
        choices := { count := 9,
                     num := fun k => if k = 0 then 0 else (g.elts i j).choices.num k } } := by
    unfold grid_clear_choice grid_set_count
    rw [setElt_elts_self, setElt_setElt]
  rw [h0]
  refine Eq.trans h ?_
  congr 1
  rw [range'_one_nine]
  simp only [List.foldl_cons, List.foldl_nil, fullElt]
  congr 2
  funext k
  by_cases hk : k ≤ 9
  · interval_cases k <;> simp
  · have h1 : ¬ (1 ≤ k ∧ k ≤ 9) := fun h => hk h.2
    simp only [h1, if_false]
    repeat rw [if_neg (by omega)]

theorem init_second_body (g : Grid_T) (i j : Nat) :
    (List.range' 1 9).foldl (fun g r => grid_clear_choice g i j r) (grid_clear_count g i j) =
      setElt g i j (clearedElt (g.elts i j)) := by
  have h := foldl_setElt (fun (r : Nat) (e : Elt_T) =>
    ({ e with choices := { e.choices with num := fun k => if k = r then 0 else e.choices.num k } }
      : Elt_T)) (List.range' 1 9) g i j
    { val := (g.elts i j).val,
      choices := { count := 0, num := (g.elts i j).choices.num } }
  have h0 : grid_clear_count g i j = setElt g i j
      { val := (g.elts i j).val,
        choices := { count := 0, num := (g.elts i j).choices.num } } := rfl
  rw [h0]
  refine Eq.trans h ?_
  congr 1
  rw [range'_one_nine]
  simp only [List.foldl_cons, List.foldl_nil, clearedElt]
  congr 2
  funext k
  by_cases hk : k ≤ 9
  · interval_cases k <;> simp
  · have h1 : ¬ (1 ≤ k ∧ k ≤ 9) := fun h => hk h.2
    simp only [h1, if_false]
    repeat rw [if_neg (by omega)]

theorem foldl_mapCells (F : Elt_T → Elt_T) (g : Grid_T) :
    (List.range 9).foldl (fun g i =>
      (List.range 9).foldl (fun g j => setElt g i j (F (g.elts i j))) g) g = mapCells F g := by
  have key := foldl_range_inv (fun g i =>
      (List.range 9).foldl (fun g j => setElt g i j (F (g.elts i j))) g)
    (fun n g' => g'.unique = g.unique ∧ ∀ a b, g'.elts a b =
      if a < n ∧ b < 9 then F (g.elts a b) else g.elts a b) 9 g
    ⟨rfl, fun a b => by simp⟩
    (by
      intro i g' _ hg'
      have inner := foldl_range_inv (fun g j => setElt g i j (F (g.elts i j)))
        (fun m g'' => g''.unique = g.unique ∧ ∀ a b, g''.elts a b =
          if (a < i ∧ b < 9) ∨ (a = i ∧ b < m) then F (g.elts a b) else g.elts a b) 9 g'
        ⟨hg'.1, fun a b => by rw [hg'.2]; simp⟩
        (by
          intro j g'' _ hg''
          refine ⟨hg''.1, fun a b => ?_⟩
          rw [setElt_elts]
          by_cases hab : a = i ∧ b = j
          · obtain ⟨rfl, rfl⟩ := hab
            rw [if_pos ⟨rfl, rfl⟩, hg''.2, if_neg (by omega), if_pos (by omega)]
          · rw [if_neg hab, hg''.2]
            by_cases h1 : (a < i ∧ b < 9) ∨ (a = i ∧ b < j)
            · rw [if_pos h1, if_pos (by omega)]
            · rw [if_neg h1, if_neg (by omega)])
      refine ⟨inner.1, fun a b => ?_⟩
      rw [inner.2]
      by_cases h1 : (a < i ∧ b < 9) ∨ (a = i ∧ b < 9)
      · rw [if_pos h1, if_pos (by omega)]
      · rw [if_neg h1, if_neg (by omega)])
  exact Grid_T.ext_grid key.1 (fun a b => by rw [key.2]; rfl)

theorem countValid_removeElt (e : Elt_T) (v : Nat) (h1 : 1 ≤ v) (h9 : v ≤ 9)
    (hv : e.choices.num v ≠ 0) :
    (countValid (removeElt v e) : Int) = (countValid e : Int) - 1 := by
  have hpos : 1 ≤ countValid e := by
    unfold countValid
    refine List.countP_pos_iff.2 ⟨v, ?_, by simpa using hv⟩
    rw [List.mem_range'_1]; omega
  have hsucc : countValid (removeElt v e) + 1 = countValid e := by
    unfold countValid removeElt
    rw [if_pos hv, range'_one_nine]
    simp only [List.countP_cons, List.countP_nil]
    interval_cases v <;> simp [hv] <;> omega
  omega

theorem InitInv.congr_inv {g0 g : Grid_T} {pre : Prop} {Pr Pr' : Nat → Nat → Prop}
    (h : InitInv g0 pre Pr g) (hP : ∀ i j, Pr i j ↔ Pr' i j) : InitInv g0 pre Pr' g := by
  have hPr : Pr = Pr' := funext fun i => funext fun j => propext (hP i j)
  rw [← hPr]; exact h

theorem hitBy_or (g0 : Grid_T) (Pr : Nat → Nat → Prop) (a b i j d : Nat) :
    hitBy g0 (fun i j => Pr i j ∨ (i = a ∧ j = b)) i j d ↔
      hitBy g0 Pr i j d ∨ (peer a b i j ∧ (g0.elts a b).val = d) := by
  constructor
  · rintro ⟨a', b', (hp | ⟨rfl, rfl⟩), hpeer, hv⟩
    · exact Or.inl ⟨a', b', hp, hpeer, hv⟩
    · exact Or.inr ⟨hpeer, hv⟩
  · rintro (⟨a', b', hp, hpeer, hv⟩ | ⟨hpeer, hv⟩)
    · exact ⟨a', b', Or.inl hp, hpeer, hv⟩
    · exact ⟨a, b, Or.inr ⟨rfl, rfl⟩, hpeer, hv⟩

theorem InitInv.step {g0 g : Grid_T} {pre : Prop} {Pr : Nat → Nat → Prop}
    (h : InitInv g0 pre Pr g) (a b : Nat) (ha : a < 9) (hb : b < 9)
    (hv : (g0.elts a b).val ≤ 9) :
    InitInv g0 pre (fun i j => Pr i j ∨ (i = a ∧ j = b))
      (if grid_read_value g a b ≠ 0 then
        sudoku_eliminate_choice
          ((List.range' 1 9).foldl (fun g r => grid_clear_choice g a b r)
            (grid_clear_count g a b)) a b (grid_read_value g a b)
      else g) := by
  have hval : grid_read_value g a b = (g0.elts a b).val := h.vals a b
  rw [hval]
  by_cases h0 : (g0.elts a b).val = 0
  · rw [if_neg (by simpa using h0)]
    have hhit : ∀ i j d, 1 ≤ d →
        (hitBy g0 (fun i j => Pr i j ∨ (i = a ∧ j = b)) i j d ↔ hitBy g0 Pr i j d) := by
      intro i j d hd
      rw [hitBy_or]
      exact ⟨fun hh => hh.elim id (fun hh => by omega), Or.inl⟩
    refine ⟨h.uniq, h.outside, h.vals, h.zero, h.high, ?_, ?_⟩
    · intro i j hi hj hp hne
      refine h.filled i j hi hj ?_ hne
      rcases hp with hp | hp | ⟨rfl, rfl⟩
      · exact Or.inl hp
      · exact Or.inr hp
      · exact absurd h0 hne
    · intro i j hi hj hn
      have hn' : ¬ ((pre ∨ Pr i j) ∧ (g0.elts i j).val ≠ 0) := by
        rintro ⟨hp, hne⟩
        exact hn ⟨hp.elim Or.inl (fun hp => Or.inr (Or.inl hp)), hne⟩
      obtain ⟨hc, hf⟩ := h.unfilled i j hi hj hn'
      refine ⟨hc, fun d hd1 hd9 => ?_⟩
      rw [hhit i j d hd1]
      exact hf d hd1 hd9
  · rw [if_pos h0, init_second_body]
    have ht := sudoku_eliminate_choice_touched (setElt g a b (clearedElt (g.elts a b))) a b
      (g0.elts a b).val ha hb
    have hv1 : 1 ≤ (g0.elts a b).val := Nat.one_le_iff_ne_zero.2 h0
    have hself : ¬ peer a b a b := fun hp => hp.2.2.1.elim (fun hh => hh rfl) (fun hh => hh rfl)
    have hab : (sudoku_eliminate_choice (setElt g a b (clearedElt (g.elts a b))) a b
        (g0.elts a b).val).elts a b = clearedElt (g.elts a b) := by
      rw [(ht.2 a b).2 hself, setElt_elts_self]
    have hpeer : ∀ i j, peer a b i j →
        (sudoku_eliminate_choice (setElt g a b (clearedElt (g.elts a b))) a b
          (g0.elts a b).val).elts i j = removeElt (g0.elts a b).val (g.elts i j) := by
      intro i j hp
      rw [(ht.2 i j).1 hp, setElt_elts, if_neg]
      rintro ⟨rfl, rfl⟩
      exact hself hp
    have hother : ∀ i j, ¬ peer a b i j → ¬ (i = a ∧ j = b) →
        (sudoku_eliminate_choice (setElt g a b (clearedElt (g.elts a b))) a b
          (g0.elts a b).val).elts i j = g.elts i j := by
      intro i j hp hne
      rw [(ht.2 i j).2 hp, setElt_elts, if_neg hne]
    refine ⟨?_, ?_, ?_, ?_, ?_, ?_, ?_⟩
    · rw [ht.1]; exact h.uniq
    · intro i j hij
      rw [hother i j (fun hp => hij ⟨hp.1, hp.2.1⟩) (fun hh => hij (by omega))]
      exact h.outside i j hij
    · intro i j
      by_cases hp : peer a b i j
      · rw [hpeer i j hp, removeElt_val]; exact h.vals i j
      · by_cases hne : i = a ∧ j = b
        · obtain ⟨rfl, rfl⟩ := hne
          rw [hab]; exact h.vals i j
        · rw [hother i j hp hne]; exact h.vals i j
    · intro i j hi hj
      by_cases hp : peer a b i j
      · rw [hpeer i j hp, removeElt_num_other _ _ _ (by omega)]; exact h.zero i j hi hj
      · by_cases hne : i = a ∧ j = b
        · obtain ⟨rfl, rfl⟩ := hne
          rw [hab]
          simp only [clearedElt]
          rw [if_neg (by omega)]
          exact h.zero i j hi hj
        · rw [hother i j hp hne]; exact h.zero i j hi hj
    · intro i j k hi hj hk
      by_cases hp : peer a b i j
      · rw [hpeer i j hp, removeElt_num_other _ _ _ (by omega)]; exact h.high i j k hi hj hk
      · by_cases hne : i = a ∧ j = b
        · obtain ⟨rfl, rfl⟩ := hne
          rw [hab]
          simp only [clearedElt]
          rw [if_neg (by omega)]
          exact h.high i j k hi hj hk
        · rw [hother i j hp hne]; exact h.high i j k hi hj hk
    · intro i j hi hj hpre hne0
      by_cases hne : i = a ∧ j = b
      · obtain ⟨rfl, rfl⟩ := hne
        rw [hab]
        refine ⟨rfl, fun d hd1 hd9 => ?_⟩
        simp only [clearedElt]
        rw [if_pos ⟨hd1, hd9⟩]
      · have hold := h.filled i j hi hj
          (hpre.elim Or.inl (fun hh => hh.elim Or.inr (fun hh => absurd hh hne))) hne0
        by_cases hp : peer a b i j
        · rw [hpeer i j hp, removeElt_of_invalid _ _ (hold.2 _ hv1 hv)]; exact hold
        · rw [hother i j hp hne]; exact hold
    · intro i j hi hj hn
      have hne : ¬ (i = a ∧ j = b) := by
        rintro ⟨rfl, rfl⟩
        exact hn ⟨Or.inr (Or.inr ⟨rfl, rfl⟩), h0⟩
      have hn' : ¬ ((pre ∨ Pr i j) ∧ (g0.elts i j).val ≠ 0) := by
        rintro ⟨hp, hne0⟩
        exact hn ⟨hp.elim Or.inl (fun hp => Or.inr (Or.inl hp)), hne0⟩
      obtain ⟨hc, hf⟩ := h.unfilled i j hi hj hn'
      by_cases hp : peer a b i j
      · rw [hpeer i j hp]
        constructor
        · by_cases hvalid : (g.elts i j).choices.num (g0.elts a b).val ≠ 0
          · rw [removeElt_count, if_pos hvalid, countValid_removeElt _ _ hv1 hv hvalid, hc]
          · rw [removeElt_of_invalid _ _ (by simpa using hvalid)]; exact hc
        · intro d hd1 hd9
          rw [hitBy_or]
          by_cases hdv : d = (g0.elts a b).val
          · rw [hdv, removeElt_num_self]
            exact ⟨fun _ => rfl, fun hh => absurd (Or.inr ⟨hp, rfl⟩) hh⟩
          · rw [removeElt_num_other _ _ _ hdv]
            refine ⟨fun hh => (hf d hd1 hd9).1 (hh.elim id (fun hh => absurd hh.2.symm hdv)),
              fun hh => (hf d hd1 hd9).2 (fun h' => hh (Or.inl h'))⟩
      · rw [hother i j hp hne]
        refine ⟨hc, fun d hd1 hd9 => ?_⟩
        rw [hitBy_or]
        refine ⟨fun hh => (hf d hd1 hd9).1 (hh.elim id (fun hh => absurd hh.1 hp)),
          fun hh => (hf d hd1 hd9).2 (fun h' => hh (Or.inl h'))⟩

theorem InitInv.loops {g0 : Grid_T} {pre : Prop} (f : Grid_T → Nat → Nat → Grid_T)
    (hf : ∀ g Pr a b, a < 9 → b < 9 → InitInv g0 pre Pr g →
      InitInv g0 pre (fun i j => Pr i j ∨ (i = a ∧ j = b)) (f g a b))
    (g : Grid_T) (h : InitInv g0 pre (fun _ _ => False) g) :
    InitInv g0 pre (fun i j => i < 9 ∧ j < 9)
      ((List.range 9).foldl (fun g i => (List.range 9).foldl (fun g j => f g i j) g) g) := by
  refine foldl_range_inv (fun g i => (List.range 9).foldl (fun g j => f g i j) g)
    (fun n g' => InitInv g0 pre (fun i j => i < n ∧ j < 9) g') 9 g
    (h.congr_inv (by intro i j; simp)) ?_
  intro i g' hi hg'
  refine (foldl_range_inv (fun g j => f g i j)
    (fun m g'' => InitInv g0 pre (fun a b => (a < i ∧ b < 9) ∨ (a = i ∧ b < m)) g'') 9 g'
    (hg'.congr_inv (by intro a b; simp)) ?_).congr_inv (by intro a b; omega)
  intro j g'' hj hg''
  exact (hf g'' _ i j hi hj hg'').congr_inv (by intro a b; omega)

theorem countValid_fullElt (e : Elt_T) : countValid (fullElt e) = 9 := by
  unfold countValid fullElt
  rw [range'_one_nine]
  simp

theorem init_first_loop (g : Grid_T) :
    (List.range 9).foldl (fun g i =>
      (List.range 9).foldl (fun g j =>
        let g := grid_clear_choice (grid_set_count g i j) i j 0
        (List.range' 1 9).foldl (fun g r => grid_set_choice g i j r) g) g) g =
      mapCells fullElt g := by
  simp only [init_first_body]
  exact foldl_mapCells fullElt g

theorem InitInv.first (g : Grid_T) :
    InitInv g False (fun _ _ => False) (mapCells fullElt (grid_set_unique g)) := by
  refine ⟨rfl, ?_, ?_, ?_, ?_, ?_, ?_⟩
  · intro i j hij
    simp only [mapCells, if_neg hij]; rfl
  · intro i j
    simp only [mapCells]
    split <;> rfl
  · intro i j hi hj
    simp only [mapCells, if_pos (And.intro hi hj), fullElt]
    rfl
  · intro i j k hi hj hk
    simp only [mapCells, if_pos (And.intro hi hj), fullElt]
    rw [if_neg (by omega), if_neg (by omega)]; rfl
  · intro i j _ _ hp
    exact absurd hp (by simp)
  · intro i j hi hj _
    simp only [mapCells, if_pos (And.intro hi hj)]
    refine ⟨by rw [countValid_fullElt]; rfl, fun d hd1 hd9 => ⟨?_, ?_⟩⟩
    · rintro ⟨_, _, hF, _⟩
      exact hF.elim
    · intro _
      simp only [fullElt]
      rw [if_pos ⟨hd1, hd9⟩]

theorem sudoku_init_choices_inv (g : Grid_T)
    (hv : ∀ i < 9, ∀ j < 9, grid_read_value g i j ≤ 9) :
    InitInv g False (fun i j => i < 9 ∧ j < 9) (sudoku_init_choices g) := by
  unfold sudoku_init_choices
  rw [init_first_loop]
  exact InitInv.loops _ (fun g' Pr a b ha hb hg' => hg'.step a b ha hb (hv a ha b hb)) _
    (InitInv.first g)

theorem Elt_T.ext_elt {e e' : Elt_T} (hv : e.val = e'.val) (hc : e.choices.count = e'.choices.count)
    (hn : ∀ k, e.choices.num k = e'.choices.num k) : e = e' := by
  obtain ⟨v, c, n⟩ := e
  obtain ⟨v', c', n'⟩ := e'
  simp only at hv hc hn
  have hn' : n = n' := funext hn
  rw [hv, hc, hn']

theorem setElt_same (g : Grid_T) (i j : Nat) : setElt g i j (g.elts i j) = g := by
  refine Grid_T.ext_grid rfl (fun a b => ?_)
  rw [setElt_elts]
  by_cases hab : a = i ∧ b = j
  · rw [if_pos hab, hab.1, hab.2]
  · rw [if_neg hab]

theorem countValid_congr (e e' : Elt_T)
    (h : ∀ d, 1 ≤ d → d ≤ 9 → e.choices.num d = e'.choices.num d) :
    countValid e = countValid e' := by
  unfold countValid
  refine List.countP_congr (fun d hd => ?_)
  rw [List.mem_range'_1] at hd
  rw [h d hd.1 (by omega)]

theorem countValid_specEmptyElt (e : Elt_T) : countValid (specEmptyElt e) = 9 := by
  unfold countValid specEmptyElt
  rw [range'_one_nine]
  simp

theorem InitInv.spec_first (g : Grid_T) (hu : g.unique = 1) :
    InitInv g True (fun _ _ => False)
      (mapCells (fun e => if e.val = 0 then specEmptyElt e else specFilledElt e) g) := by
  refine ⟨hu, ?_, ?_, ?_, ?_, ?_, ?_⟩
  · intro i j hij
    simp only [mapCells, if_neg hij]
  · intro i j
    simp only [mapCells]
    split
    · split <;> rfl
    · rfl
  · intro i j hi hj
    simp only [mapCells, if_pos (And.intro hi hj)]
    split <;> rfl
  · intro i j k hi hj hk
    simp only [mapCells, if_pos (And.intro hi hj)]
    split
    · simp only [specEmptyElt]; rw [if_neg (by omega)]
    · simp only [specFilledElt]; rw [if_neg (by omega)]
  · intro i j hi hj _ hne
    simp only [mapCells, if_pos (And.intro hi hj), if_neg hne]
    refine ⟨rfl, fun d _ hd9 => ?_⟩
    simp only [specFilledElt]
    rw [if_pos hd9]
  · intro i j hi hj hn
    have h0 : (g.elts i j).val = 0 := by
      by_contra hne
      exact hn ⟨Or.inl trivial, hne⟩
    simp only [mapCells, if_pos (And.intro hi hj), if_pos h0]
    refine ⟨by rw [countValid_specEmptyElt]; rfl, fun d hd1 hd9 => ⟨?_, ?_⟩⟩
    · rintro ⟨_, _, hF, _⟩
      exact hF.elim
    · intro _
      simp only [specEmptyElt]
      rw [if_pos hd9, if_pos hd1]

theorem InitInv.spec_step {g0 g : Grid_T} {Pr : Nat → Nat → Prop}
    (h : InitInv g0 True Pr g) (a b : Nat) (ha : a < 9) (hb : b < 9)
    (hv : (g0.elts a b).val ≤ 9) :
    InitInv g0 True (fun i j => Pr i j ∨ (i = a ∧ j = b))
      (if grid_read_value g a b ≠ 0 then
        sudoku_eliminate_choice g a b (grid_read_value g a b)
      else g) := by
  have hstep := h.step a b ha hb hv
  by_cases h0 : grid_read_value g a b ≠ 0
  · rw [if_pos h0] at hstep ⊢
    rw [init_second_body] at hstep
    have hne : (g0.elts a b).val ≠ 0 := by
      rw [← h.vals a b]; exact h0
    obtain ⟨hc, hf⟩ := h.filled a b ha hb (Or.inl trivial) hne
    have hcl : clearedElt (g.elts a b) = g.elts a b := by
      refine Elt_T.ext_elt rfl hc.symm (fun k => ?_)
      simp only [clearedElt]
      by_cases hk : 1 ≤ k ∧ k ≤ 9
      · rw [if_pos hk, hf k hk.1 hk.2]
      · rw [if_neg hk]
    rw [hcl, setElt_same] at hstep
    exact hstep
  · rw [if_neg h0] at hstep ⊢
    exact hstep

theorem initializeCandidates_inv (g : Grid_T) (hu : g.unique = 1)
    (hv : ∀ i < 9, ∀ j < 9, grid_read_value g i j ≤ 9) :
    InitInv g True (fun i j => i < 9 ∧ j < 9) (initializeCandidates g) := by
  unfold initializeCandidates
  exact InitInv.loops _ (fun g' Pr a b ha hb hg' => hg'.spec_step a b ha hb (hv a ha b hb)) _
    (InitInv.spec_first g hu)

theorem InitInv.final_eq {g0 g g' : Grid_T} {pre pre' : Prop}
    (h : InitInv g0 pre (fun i j => i < 9 ∧ j < 9) g)
    (h' : InitInv g0 pre' (fun i j => i < 9 ∧ j < 9) g') : g = g' := by
  refine Grid_T.ext_grid (by rw [h.uniq, h'.uniq]) (fun i j => ?_)
  by_cases hij : i < 9 ∧ j < 9
  · obtain ⟨hi, hj⟩ := hij
    have hnum : ∀ k, (g.elts i j).choices.num k = (g'.elts i j).choices.num k := by
      intro k
      by_cases hk0 : k = 0
      · rw [hk0, h.zero i j hi hj, h'.zero i j hi hj]
      · by_cases hk9 : 9 < k
        · rw [h.high i j k hi hj hk9, h'.high i j k hi hj hk9]
        · by_cases hne : (g0.elts i j).val ≠ 0
          · rw [(h.filled i j hi hj (Or.inr ⟨hi, hj⟩) hne).2 k (by omega) (by omega),
              (h'.filled i j hi hj (Or.inr ⟨hi, hj⟩) hne).2 k (by omega) (by omega)]
          · have h1 := (h.unfilled i j hi hj (fun hh => hne hh.2)).2 k (by omega) (by omega)
            have h2 := (h'.unfilled i j hi hj (fun hh => hne hh.2)).2 k (by omega) (by omega)
            by_cases hh : hitBy g0 (fun i j => i < 9 ∧ j < 9) i j k
            · rw [h1.1 hh, h2.1 hh]
            · rw [h1.2 hh, h2.2 hh]
    refine Elt_T.ext_elt (by rw [h.vals, h'.vals]) ?_ hnum
    by_cases hne : (g0.elts i j).val ≠ 0
    · rw [(h.filled i j hi hj (Or.inr ⟨hi, hj⟩) hne).1,
        (h'.filled i j hi hj (Or.inr ⟨hi, hj⟩) hne).1]
    · rw [(h.unfilled i j hi hj (fun hh => hne hh.2)).1,
        (h'.unfilled i j hi hj (fun hh => hne hh.2)).1,
        countValid_congr _ _ (fun d _ _ => hnum d)]
  · rw [h.outside i j hij, h'.outside i j hij]

theorem hitBy_all_iff (g : Grid_T) (i j d : Nat) (hi : i < 9) (hj : j < 9) :
    hitBy g (fun i j => i < 9 ∧ j < 9) i j d ↔ ¬ noPeerHas g i j d := by
  unfold hitBy noPeerHas peer grid_read_value
  constructor
  · rintro ⟨a, b, ⟨ha, hb⟩, hp, hv⟩ hno
    exact hno a ha b hb ⟨ha, hb, by omega, by omega⟩ hv
  · intro hno
    by_contra hex
    refine hno (fun a ha b hb hp hv => hex ⟨a, b, ⟨ha, hb⟩, ⟨hi, hj, by omega, by omega⟩, hv⟩)

theorem InitInv.change_base {g0 g : Grid_T} {pre : Prop} {Pr : Nat → Nat → Prop}
    (h : InitInv g0 pre Pr g) (g0' : Grid_T) (he : g0.elts = g0'.elts) :
    InitInv g0' pre Pr g := by
  obtain ⟨u, e⟩ := g0
  obtain ⟨u', e'⟩ := g0'
  simp only at he
  subst he
  exact ⟨h.uniq, h.outside, h.vals, h.zero, h.high, h.filled, h.unfilled⟩

theorem twoFives_range : ∀ i < 9, ∀ j < 9, grid_read_value twoFives i j ≤ 9 := by
  intro i _ j _
  simp only [grid_read_value, twoFives]
  split <;> omega

theorem sudoku_init_choices_valid_iff (g : Grid_T)
    (hv : ∀ i < 9, ∀ j < 9, grid_read_value g i j ≤ 9) (i j d : Nat) (hi : i < 9) (hj : j < 9)
    (h0 : grid_read_value g i j = 0) (hd1 : 1 ≤ d) (hd9 : d ≤ 9) :
    grid_choice_is_valid (sudoku_init_choices g) i j d ≠ 0 ↔ noPeerHas g i j d := by
  have h := sudoku_init_choices_inv g hv
  have hf := (h.unfilled i j hi hj (fun hh => hh.2 h0)).2 d hd1 hd9
  unfold grid_choice_is_valid
  by_cases hh : hitBy g (fun i j => i < 9 ∧ j < 9) i j d
  · rw [hf.1 hh]
    exact ⟨fun hne => absurd rfl hne, fun hno => absurd hno ((hitBy_all_iff g i j d hi hj).1 hh)⟩
  · rw [hf.2 hh]
    refine ⟨fun _ => ?_, fun _ => by decide⟩
    by_contra hno
    exact hh ((hitBy_all_iff g i j d hi hj).2 hno)

theorem sudoku_init_choices_count_empty (g : Grid_T)
    (hv : ∀ i < 9, ∀ j < 9, grid_read_value g i j ≤ 9) (i j : Nat) (hi : i < 9) (hj : j < 9)
    (h0 : grid_read_value g i j = 0) :
    grid_read_count (sudoku_init_choices g) i j =
      ((List.range' 1 9).countP (fun d => decide (noPeerHas g i j d)) : Nat) := by
  have h := sudoku_init_choices_inv g hv
  have hcv : countValid ((sudoku_init_choices g).elts i j) =
      (List.range' 1 9).countP (fun d => decide (noPeerHas g i j d)) := by
    refine List.countP_congr (fun d hd => ?_)
    rw [List.mem_range'_1] at hd
    have := sudoku_init_choices_valid_iff g hv i j d hi hj h0 hd.1 (by omega)
    simp only [decide_eq_true_eq]
    exact this
  show ((sudoku_init_choices g).elts i j).choices.count = _
  rw [(h.unfilled i j hi hj (fun hh => hh.2 h0)).1, hcv]

theorem sudoku_init_choices_eq_spec (g : Grid_T)
    (hv : ∀ i < 9, ∀ j < 9, grid_read_value g i j ≤ 9) :
    sudoku_init_choices g = initializeCandidates (grid_set_unique g) :=
  (sudoku_init_choices_inv g hv).final_eq
    ((initializeCandidates_inv (grid_set_unique g) rfl hv).change_base g rfl)

/-- C7: on a grid whose values are all in 0..9, whatever its flags, counts and
unique flag were, `sudoku_init_choices` leaves every filled cell with no valid
digit in 1..9 and count 0, leaves every empty cell with exactly the digits in
1..9 that no peer holds as valid digits and with their number as count, clears
the flag of digit 0 in every cell, keeps all values and sets unique to 1; and
its result is the grid that the two-phase `initializeCandidates` of the spec
produces (after unique has been set). -/
theorem C7_init_choices_result (g : Grid_T)
    (hv : ∀ i < 9, ∀ j < 9, grid_read_value g i j ≤ 9) :
    (∀ i < 9, ∀ j < 9, grid_read_value g i j ≠ 0 →
      grid_read_count (sudoku_init_choices g) i j = 0 ∧
      ∀ d, 1 ≤ d → d ≤ 9 → grid_choice_is_valid (sudoku_init_choices g) i j d = 0) ∧
    (∀ i < 9, ∀ j < 9, grid_read_value g i j = 0 →
      (∀ d, 1 ≤ d → d ≤ 9 →
        (grid_choice_is_valid (sudoku_init_choices g) i j d ≠ 0 ↔ noPeerHas g i j d)) ∧
      grid_read_count (sudoku_init_choices g) i j =
        ((List.range' 1 9).countP (fun d => decide (noPeerHas g i j d)) : Nat)) ∧
    (∀ i < 9, ∀ j < 9, grid_choice_is_valid (sudoku_init_choices g) i j 0 = 0) ∧
    (∀ i j, grid_read_value (sudoku_init_choices g) i j = grid_read_value g i j) ∧
    grid_read_unique (sudoku_init_choices g) = 1 ∧
    sudoku_init_choices g = initializeCandidates (grid_set_unique g) := by
  have h := sudoku_init_choices_inv g hv
  refine ⟨?_, ?_, fun i hi j hj => h.zero i j hi hj, h.vals, h.uniq,
    sudoku_init_choices_eq_spec g hv⟩
  · intro i hi j hj hne
    exact h.filled i j hi hj (Or.inr ⟨hi, hj⟩) hne
  · intro i hi j hj h0
    exact ⟨fun d hd1 hd9 => sudoku_init_choices_valid_iff g hv i j d hi hj h0 hd1 hd9,
      sudoku_init_choices_count_empty g hv i j hi hj h0⟩

theorem C7_init_choices_result_witness :
    grid_read_count (sudoku_init_choices twoFives) 0 0 = 0 ∧
    grid_choice_is_valid (sudoku_init_choices twoFives) 0 0 5 = 0 ∧
    grid_read_unique (sudoku_init_choices twoFives) = 1 :=
  ⟨((C7_init_choices_result twoFives twoFives_range).1 0 (by decide) 0 (by decide)
      (by decide)).1,
   ((C7_init_choices_result twoFives twoFives_range).1 0 (by decide) 0 (by decide)
      (by decide)).2 5 (by decide) (by decide),
   (C7_init_choices_result twoFives twoFives_range).2.2.2.2.1⟩

theorem isComplete_eq_one_iff (g : Grid_T) : isComplete g = 1 ↔ allCountsZero g := by
  unfold isComplete allCountsZero
  by_cases h : (List.range 9).all (fun i => (List.range 9).all (fun j =>
      decide (grid_read_count g i j = 0))) = true
  · rw [if_pos h]
    simp only [List.all_eq_true, List.mem_range, decide_eq_true_eq] at h
    simpa using h
  · rw [if_neg h]
    simp only [List.all_eq_true, List.mem_range, decide_eq_true_eq] at h
    simpa using h

theorem isComplete_ne_zero_iff (g : Grid_T) : isComplete g ≠ 0 ↔ allCountsZero g := by
  rw [← isComplete_eq_one_iff]
  unfold isComplete
  split <;> simp

theorem minCount_le (g : Grid_T) :
    minCount g ≤ 9 ∧ ∀ i < 9, ∀ j < 9, minCount g ≤ grid_read_count g i j := by
  unfold minCount
  refine foldl_range_inv (fun count i => (List.range 9).foldl (fun count j =>
      if grid_read_count g i j ≤ count then grid_read_count g i j else count) count)
    (fun n m => m ≤ 9 ∧ ∀ i < n, ∀ j < 9, m ≤ grid_read_count g i j) 9 9
    ⟨le_refl _, fun i hi => absurd hi (Nat.not_lt_zero i)⟩ ?_
  intro i m _ hm
  have inner := foldl_range_inv (fun count j =>
      if grid_read_count g i j ≤ count then grid_read_count g i j else count)
    (fun k m' => m' ≤ m ∧ ∀ j < k, m' ≤ grid_read_count g i j) 9 m
    ⟨le_refl _, fun j hj => absurd hj (Nat.not_lt_zero j)⟩
    (by
      intro j m' _ hm'
      by_cases hle : grid_read_count g i j ≤ m'
      · simp only [if_pos hle]
        refine ⟨le_trans hle hm'.1, fun j' hj' => ?_⟩
        rcases Nat.lt_succ_iff_lt_or_eq.1 hj' with hlt | rfl
        · exact le_trans hle (hm'.2 j' hlt)
        · exact le_refl _
      · simp only [if_neg hle]
        refine ⟨hm'.1, fun j' hj' => ?_⟩
        rcases Nat.lt_succ_iff_lt_or_eq.1 hj' with hlt | rfl
        · exact hm'.2 j' hlt
        · exact le_of_lt (not_le.1 hle))
  refine ⟨le_trans inner.1 hm.1, fun i' hi' j hj => ?_⟩
  rcases Nat.lt_succ_iff_lt_or_eq.1 hi' with hlt | rfl
  · exact le_trans inner.1 (hm.2 i' hlt j hj)
  · exact inner.2 j hj

theorem minCount_ge (g : Grid_T) (m : Int) (hm9 : m ≤ 9)
    (hm : ∀ i < 9, ∀ j < 9, m ≤ grid_read_count g i j) : m ≤ minCount g := by
  unfold minCount
  refine foldl_range_inv (fun count i => (List.range 9).foldl (fun count j =>
      if grid_read_count g i j ≤ count then grid_read_count g i j else count) count)
    (fun _ c => m ≤ c) 9 9 hm9 ?_
  intro i c hi hc
  refine foldl_range_inv (fun count j =>
      if grid_read_count g i j ≤ count then grid_read_count g i j else count)
    (fun _ c' => m ≤ c') 9 c hc ?_
  intro j c' hj hc'
  show m ≤ if grid_read_count g i j ≤ c' then grid_read_count g i j else c'
  split
  · exact hm i hi j hj
  · exact hc'

theorem sudoku_try_next_loop_some (rnd : Nat → Nat) (g : Grid_T) (count : Int) (fuel p : Nat)
    (t : TryNext) (h : sudoku_try_next_loop rnd g count fuel p = some t) :
    1 ≤ t.ret ∧ t.ret ≤ 9 ∧ t.row < 9 ∧ t.col < 9 ∧
      grid_read_count g t.row t.col = count ∧ grid_choice_is_valid g t.row t.col t.ret ≠ 0 := by
  induction fuel generalizing p with
  | zero => simp [sudoku_try_next_loop] at h
  | succ f ih =>
    unfold sudoku_try_next_loop at h
    simp only at h
    by_cases hc : grid_read_count g (rnd p % 9) (rnd (p + 1) % 9) = count
    · rw [if_pos hc] at h
      by_cases hvalid : grid_choice_is_valid g (rnd p % 9) (rnd (p + 1) % 9)
          (rnd (p + 2) % 9 + 1) ≠ 0
      · rw [if_pos hvalid] at h
        simp only [Option.some.injEq] at h
        subst h
        exact ⟨Nat.le_add_left 1 _, Nat.succ_le_of_lt (Nat.mod_lt _ (by decide)),
          Nat.mod_lt _ (by decide), Nat.mod_lt _ (by decide), hc, hvalid⟩
      · rw [if_neg hvalid] at h
        exact ih _ h
    · rw [if_neg hc] at h
      exact ih _ h

theorem sudoku_try_next_loop_none (rnd : Nat → Nat) (g : Grid_T) (count : Int)
    (hno : ∀ r < 9, ∀ c < 9, grid_read_count g r c = count → ∀ d, 1 ≤ d → d ≤ 9 →
      grid_choice_is_valid g r c d = 0) (fuel p : Nat) :
    sudoku_try_next_loop rnd g count fuel p = none := by
  cases hres : sudoku_try_next_loop rnd g count fuel p with
  | none => rfl
  | some t =>
    obtain ⟨h1, h9, hr, hc, hcnt, hvalid⟩ := sudoku_try_next_loop_some rnd g count fuel p t hres
    exact absurd (hno _ hr _ hc hcnt _ h1 h9) hvalid

theorem sudoku_try_next_complete (rnd : Nat → Nat) (fuel p : Nat) (g : Grid_T) (row col : Nat)
    (h : allCountsZero g) :
    sudoku_try_next rnd fuel p g row col = some { ret := 0, row := row, col := col, pos := p } := by
  unfold sudoku_try_next
  rw [if_pos ((isComplete_ne_zero_iff g).2 h)]

theorem sudoku_try_next_some (rnd : Nat → Nat) (fuel p : Nat) (g : Grid_T) (row col : Nat)
    (t : TryNext) (h : sudoku_try_next rnd fuel p g row col = some t) :
    (t.ret = 0 → allCountsZero g ∧ t.pos = p) ∧
    (allCountsZero g → t.ret = 0) ∧
    (t.ret ≠ 0 → 1 ≤ t.ret ∧ t.ret ≤ 9 ∧ t.row < 9 ∧ t.col < 9 ∧
      grid_choice_is_valid g t.row t.col t.ret ≠ 0 ∧
      ∀ i < 9, ∀ j < 9, grid_read_count g t.row t.col ≤ grid_read_count g i j) := by
  unfold sudoku_try_next at h
  by_cases hc : isComplete g ≠ 0
  · rw [if_pos hc] at h
    simp only [Option.some.injEq] at h
    subst h
    exact ⟨fun _ => ⟨(isComplete_ne_zero_iff g).1 hc, rfl⟩, fun _ => rfl,
      fun hne => absurd rfl hne⟩
  · rw [if_neg hc] at h
    obtain ⟨h1, h9, hr, hcl, hcnt, hvalid⟩ := sudoku_try_next_loop_some rnd g _ fuel p t h
    refine ⟨fun h0 => by omega, fun hall => absurd ((isComplete_ne_zero_iff g).2 hall) hc,
      fun _ => ⟨h1, h9, hr, hcl, hvalid, fun i hi j hj => ?_⟩⟩
    rw [hcnt]
    exact (minCount_le g).2 i hi j hj

/-- C10: `sudoku_try_next` returns 0 exactly when every one of the 81 cells has
count 0 (and then it does return, whatever the fuel); and when it returns a
non-zero digit `n` with outputs `(row, col)`, then `1 ≤ n ≤ 9`, `row, col < 9`,
`n` is marked valid for cell `(row, col)`, and the count of that cell is the
least count over all 81 cells. -/
theorem C10_try_next_result (rnd : Nat → Nat) (fuel p : Nat) (g : Grid_T) (row col : Nat) :
    (allCountsZero g →
      sudoku_try_next rnd fuel p g row col =
        some { ret := 0, row := row, col := col, pos := p }) ∧
    (∀ t, sudoku_try_next rnd fuel p g row col = some t →
      (t.ret = 0 ↔ allCountsZero g) ∧
      (t.ret ≠ 0 → 1 ≤ t.ret ∧ t.ret ≤ 9 ∧ t.row < 9 ∧ t.col < 9 ∧
        grid_choice_is_valid g t.row t.col t.ret ≠ 0 ∧
        ∀ i < 9, ∀ j < 9, grid_read_count g t.row t.col ≤ grid_read_count g i j)) := by
  refine ⟨sudoku_try_next_complete rnd fuel p g row col, fun t ht => ?_⟩
  obtain ⟨h1, h2, h3⟩ := sudoku_try_next_some rnd fuel p g row col t ht
  exact ⟨⟨fun h0 => (h1 h0).1, h2⟩, h3⟩

set_option maxRecDepth 100000 in
theorem C10_try_next_result_witness :
    sudoku_try_next (fun _ => 0) 1 0 fullChoices 7 7 =
        some { ret := 1, row := 0, col := 0, pos := 3 } ∧
      (1 ≤ 1 ∧ 1 ≤ 9 ∧ 0 < 9 ∧ 0 < 9 ∧ grid_choice_is_valid fullChoices 0 0 1 ≠ 0) :=
  ⟨by rfl,
   (((C10_try_next_result (fun _ => 0) 1 0 fullChoices 7 7).2
      { ret := 1, row := 0, col := 0, pos := 3 } (by rfl)).2 (by decide)).1,
   (((C10_try_next_result (fun _ => 0) 1 0 fullChoices 7 7).2
      { ret := 1, row := 0, col := 0, pos := 3 } (by rfl)).2 (by decide)).2.1,
   (((C10_try_next_result (fun _ => 0) 1 0 fullChoices 7 7).2
      { ret := 1, row := 0, col := 0, pos := 3 } (by rfl)).2 (by decide)).2.2.1,
   (((C10_try_next_result (fun _ => 0) 1 0 fullChoices 7 7).2
      { ret := 1, row := 0, col := 0, pos := 3 } (by rfl)).2 (by decide)).2.2.2.1,
   (((C10_try_next_result (fun _ => 0) 1 0 fullChoices 7 7).2
      { ret := 1, row := 0, col := 0, pos := 3 } (by rfl)).2 (by decide)).2.2.2.2.1⟩

theorem countValid_eq_zero (e : Elt_T) (h : ∀ d, 1 ≤ d → d ≤ 9 → e.choices.num d = 0) :
    countValid e = 0 := by
  unfold countValid
  rw [List.countP_eq_zero]
  intro d hd
  rw [List.mem_range'_1] at hd
  simp [h d hd.1 (by omega)]

theorem countValid_zero_flags (e : Elt_T) (h : countValid e = 0) (d : Nat) (hd1 : 1 ≤ d)
    (hd9 : d ≤ 9) : e.choices.num d = 0 := by
  unfold countValid at h
  rw [List.countP_eq_zero] at h
  have := h d (by rw [List.mem_range'_1]; omega)
  simpa using this

theorem sudoku_init_choices_count (g : Grid_T) (hv : valuesInRange g) (i j : Nat)
    (hi : i < 9) (hj : j < 9) :
    grid_read_count (sudoku_init_choices g) i j =
      (countValid ((sudoku_init_choices g).elts i j) : Int) := by
  have h := sudoku_init_choices_inv g hv
  by_cases hne : (g.elts i j).val ≠ 0
  · obtain ⟨hc, hf⟩ := h.filled i j hi hj (Or.inr ⟨hi, hj⟩) hne
    show ((sudoku_init_choices g).elts i j).choices.count = _
    rw [hc, countValid_eq_zero _ hf]; rfl
  · exact (h.unfilled i j hi hj (fun hh => hne hh.2)).1

theorem sudoku_init_choices_count_filled (g : Grid_T) (hv : valuesInRange g) (i j : Nat)
    (hi : i < 9) (hj : j < 9) (hne : grid_read_value g i j ≠ 0) :
    grid_read_count (sudoku_init_choices g) i j = 0 :=
  ((sudoku_init_choices_inv g hv).filled i j hi hj (Or.inr ⟨hi, hj⟩) hne).1

theorem sudoku_init_choices_value (g : Grid_T) (hv : valuesInRange g) (i j : Nat) :
    grid_read_value (sudoku_init_choices g) i j = grid_read_value g i j :=
  (sudoku_init_choices_inv g hv).vals i j

theorem sudoku_try_next_stuck (rnd : Nat → Nat) (g : Grid_T) (hv : valuesInRange g)
    (hnz : ¬ allCountsZero (sudoku_init_choices g))
    (hz : ∃ i < 9, ∃ j < 9, grid_read_count (sudoku_init_choices g) i j = 0)
    (fuel p row col : Nat) :
    sudoku_try_next rnd fuel p (sudoku_init_choices g) row col = none := by
  unfold sudoku_try_next
  rw [if_neg (fun h => hnz ((isComplete_ne_zero_iff _).1 h))]
  have hmin : minCount (sudoku_init_choices g) = 0 := by
    obtain ⟨i, hi, j, hj, h0⟩ := hz
    have h1 := (minCount_le (sudoku_init_choices g)).2 i hi j hj
    have h2 := minCount_ge (sudoku_init_choices g) 0 (by decide) (fun a ha b hb => by
      rw [sudoku_init_choices_count g hv a b ha hb]
      exact Int.ofNat_nonneg _)
    omega
  rw [hmin]
  refine sudoku_try_next_loop_none rnd _ 0 ?_ fuel p
  intro r hr c hc hcnt d hd1 hd9
  rw [sudoku_init_choices_count g hv r c hr hc] at hcnt
  exact countValid_zero_flags _ (by exact_mod_cast hcnt) d hd1 hd9

theorem sudoku_solve_succ (rnd : Nat → Nat) (fuel p : Nat) (g : Grid_T) :
    sudoku_solve rnd (fuel + 1) p g =
      sudoku_solve_loop (sudoku_solve rnd fuel) rnd (fuel + 1) p (sudoku_init_choices g)
        0 0 false := rfl

theorem sudoku_solve_loop_succ (solve : Nat → Grid_T → Option SolveResult) (rnd : Nat → Nat)
    (fuel p : Nat) (g : Grid_T) (i j : Nat) (br : Bool) :
    sudoku_solve_loop solve rnd (fuel + 1) p g i j br =
      match sudoku_try_next rnd (fuel + 1) p g i j with
      | none => none
      | some t =>
        if t.ret = 0 then some { grid := g, pos := t.pos, branched := br }
        else
          if (sudoku_update_choice g t.row t.col t.ret).1 = 1 then
            sudoku_solve_loop solve rnd fuel t.pos
              (sudoku_eliminate_choice
                (grid_update_value (sudoku_update_choice g t.row t.col t.ret).2 t.row t.col t.ret)
                t.row t.col t.ret) t.row t.col br
          else
            match solve t.pos (grid_update_value
                (grid_clear_unique (sudoku_update_choice g t.row t.col t.ret).2)
                t.row t.col t.ret) with
            | none => none
            | some s =>
              if sudoku_is_correct s.grid ≠ 0 then
                some { grid := s.grid, pos := s.pos, branched := true }
              else sudoku_solve_loop solve rnd fuel s.pos
                (grid_clear_unique (sudoku_update_choice g t.row t.col t.ret).2)
                t.row t.col true := rfl

theorem sudoku_solve_stuck (rnd : Nat → Nat) (g : Grid_T) (hv : valuesInRange g)
    (hnz : ¬ allCountsZero (sudoku_init_choices g))
    (hz : ∃ i < 9, ∃ j < 9, grid_read_count (sudoku_init_choices g) i j = 0)
    (fuel p : Nat) : sudoku_solve rnd fuel p g = none := by
  cases fuel with
  | zero => rfl
  | succ f =>
    rw [sudoku_solve_succ, sudoku_solve_loop_succ, sudoku_try_next_stuck rnd g hv hnz hz]

theorem sudoku_solve_complete (rnd : Nat → Nat) (g : Grid_T)
    (hz : allCountsZero (sudoku_init_choices g)) (fuel p : Nat) :
    sudoku_solve rnd (fuel + 1) p g =
      some { grid := sudoku_init_choices g, pos := p, branched := false } := by
  rw [sudoku_solve_succ, sudoku_solve_loop_succ, sudoku_try_next_complete rnd _ p _ 0 0 hz]
  rfl

theorem sudoku_init_choices_count_ne_zero (g : Grid_T) (hv : valuesInRange g) (i j d : Nat)
    (hi : i < 9) (hj : j < 9) (h0 : grid_read_value g i j = 0) (hd1 : 1 ≤ d) (hd9 : d ≤ 9)
    (hfree : noPeerHas g i j d) : grid_read_count (sudoku_init_choices g) i j ≠ 0 := by
  rw [sudoku_init_choices_count_empty g hv i j hi hj h0]
  have hpos : 0 < (List.range' 1 9).countP (fun d => decide (noPeerHas g i j d)) := by
    refine List.countP_pos_iff.2 ⟨d, ?_, by simpa using hfree⟩
    rw [List.mem_range'_1]; omega
  omega

theorem sudoku_init_choices_count_all_empty (g : Grid_T)
    (h0 : ∀ i < 9, ∀ j < 9, grid_read_value g i j = 0) (i j : Nat) (hi : i < 9) (hj : j < 9) :
    grid_read_count (sudoku_init_choices g) i j = 9 := by
  have hv : valuesInRange g := fun a ha b hb => by rw [h0 a ha b hb]; omega
  rw [sudoku_init_choices_count_empty g hv i j hi hj (h0 i hi j hj)]
  have hall : (List.range' 1 9).countP (fun d => decide (noPeerHas g i j d)) =
      (List.range' 1 9).length := by
    rw [List.countP_eq_length]
    intro d hd
    rw [List.mem_range'_1] at hd
    simp only [decide_eq_true_eq]
    intro a ha b hb _
    rw [h0 a ha b hb]; omega
  rw [hall]; rfl

theorem sudoku_update_choice_fst (g : Grid_T) (i j n : Nat) :
    (sudoku_update_choice g i j n).1 = grid_read_count g i j := rfl

theorem sudoku_update_choice_snd (g : Grid_T) (i j n : Nat) :
    (sudoku_update_choice g i j n).2 = grid_remove_choice g i j n := rfl

theorem guess_value (g : Grid_T) (r c n i j : Nat) :
    grid_read_value (grid_update_value (grid_clear_unique (sudoku_update_choice g r c n).2)
      r c n) i j = if i = r ∧ j = c then n else grid_read_value g i j := by
  rw [sudoku_update_choice_snd]
  show ((grid_update_value (grid_clear_unique (grid_remove_choice g r c n)) r c n).elts i j).val
    = _
  unfold grid_update_value
  rw [setElt_elts]
  by_cases hij : i = r ∧ j = c
  · rw [if_pos hij, if_pos hij]
  · rw [if_neg hij, if_neg hij]
    show ((grid_remove_choice g r c n).elts i j).val = _
    rw [grid_remove_choice_eq, setElt_elts, if_neg hij]
    rfl

theorem sudoku_solve_some (rnd : Nat → Nat) (g : Grid_T) (hv : valuesInRange g)
    (fuel p : Nat) (s : SolveResult) (h : sudoku_solve rnd fuel p g = some s) :
    allCountsZero (sudoku_init_choices g) ∧
      s = { grid := sudoku_init_choices g, pos := p, branched := false } := by
  by_cases hz : allCountsZero (sudoku_init_choices g)
  · cases fuel with
    | zero => exact absurd h (by simp [sudoku_solve])
    | succ f =>
      rw [sudoku_solve_complete rnd g hz] at h
      exact ⟨hz, (Option.some.inj h).symm⟩
  · exfalso
    by_cases hex : ∃ i < 9, ∃ j < 9, grid_read_count (sudoku_init_choices g) i j = 0
    · rw [sudoku_solve_stuck rnd g hv hz hex] at h
      exact absurd h (by simp)
    · have hempty : ∀ i < 9, ∀ j < 9, grid_read_value g i j = 0 := by
        intro i hi j hj
        by_contra hne
        exact hex ⟨i, hi, j, hj, sudoku_init_choices_count_filled g hv i j hi hj hne⟩
      cases fuel with
      | zero => exact absurd h (by simp [sudoku_solve])
      | succ f =>
        rw [sudoku_solve_succ, sudoku_solve_loop_succ] at h
        cases ht : sudoku_try_next rnd (f + 1) p (sudoku_init_choices g) 0 0 with
        | none =>
          rw [ht] at h
          exact absurd h (by simp)
        | some t =>
          rw [ht] at h
          simp only at h
          obtain ⟨h1, _, h3⟩ := sudoku_try_next_some rnd (f + 1) p _ 0 0 t ht
          have hret : t.ret ≠ 0 := fun h0 => hz (h1 h0).1
          obtain ⟨hr1, hr9, hrow, hcol, _, _⟩ := h3 hret
          have huc : (sudoku_update_choice (sudoku_init_choices g) t.row t.col t.ret).1 = 9 := by
            rw [sudoku_update_choice_fst]
            exact sudoku_init_choices_count_all_empty g hempty t.row t.col hrow hcol
          rw [if_neg hret, if_neg (by rw [huc]; decide)] at h
          have hval : ∀ i j, grid_read_value (grid_update_value (grid_clear_unique
              (sudoku_update_choice (sudoku_init_choices g) t.row t.col t.ret).2)
              t.row t.col t.ret) i j =
              if i = t.row ∧ j = t.col then t.ret else grid_read_value g i j := by
            intro i j
            rw [guess_value, sudoku_init_choices_value g hv]
          have hvt : valuesInRange (grid_update_value (grid_clear_unique
              (sudoku_update_choice (sudoku_init_choices g) t.row t.col t.ret).2)
              t.row t.col t.ret) := by
            intro i hi j hj
            rw [hval]
            split
            · exact hr9
            · exact hv i hi j hj
          have hnone := sudoku_solve_stuck rnd _ hvt
            (by
              intro hall
              have hi' : (t.row + 1) % 9 < 9 := Nat.mod_lt _ (by decide)
              have hne' : ¬ ((t.row + 1) % 9 = t.row ∧ t.col = t.col) := by omega
              refine sudoku_init_choices_count_ne_zero _ hvt ((t.row + 1) % 9) t.col
                (if t.ret = 1 then 2 else 1) hi' hcol ?_ (by split <;> omega)
                (by split <;> omega) ?_ (hall _ hi' _ hcol)
              · rw [hval, if_neg hne']
                exact hempty _ hi' _ hcol
              · intro a ha b hb _
                rw [hval]
                by_cases hab : a = t.row ∧ b = t.col
                · rw [if_pos hab]
                  split <;> omega
                · rw [if_neg hab, hempty a ha b hb]
                  split <;> omega)
            ⟨t.row, hrow, t.col, hcol, sudoku_init_choices_count_filled _ hvt _ _ hrow hcol
              (by rw [hval, if_pos ⟨rfl, rfl⟩]; exact hret)⟩ f t.pos
          rw [hnone] at h
          exact absurd h (by simp)

theorem sudoku_solve_all_empty (rnd : Nat → Nat) (g : Grid_T)
    (h0 : ∀ i < 9, ∀ j < 9, grid_read_value g i j = 0) (fuel p : Nat) :
    sudoku_solve rnd fuel p g = none := by
  have hv : valuesInRange g := fun a ha b hb => by rw [h0 a ha b hb]; omega
  cases hs : sudoku_solve rnd fuel p g with
  | none => rfl
  | some s =>
    have hz := (sudoku_solve_some rnd g hv fuel p s hs).1 0 (by decide) 0 (by decide)
    rw [sudoku_init_choices_count_all_empty g h0 0 0 (by decide) (by decide)] at hz
    exact absurd hz (by decide)

theorem exactly_once (v : Nat → Nat) (hr : ∀ k < 9, 1 ≤ v k ∧ v k ≤ 9)
    (hinj : ∀ k < 9, ∀ k' < 9, v k = v k' → k = k') (d : Nat) (hd1 : 1 ≤ d) (hd9 : d ≤ 9) :
    ∃! k, k < 9 ∧ v k = d := by
  let f : Fin 9 → Fin 9 := fun k => ⟨v k - 1, by have := hr k k.2; omega⟩
  have hf : Function.Injective f := by
    intro a b hab
    have h1 := hr a a.2
    have h2 := hr b b.2
    have h3 : v a - 1 = v b - 1 := congrArg Fin.val hab
    exact Fin.ext (hinj a a.2 b b.2 (by omega))
  obtain ⟨k, hk⟩ := (Finite.injective_iff_surjective.1 hf) ⟨d - 1, by omega⟩
  have hk' : v k - 1 = d - 1 := congrArg Fin.val hk
  have h1 := hr k k.2
  refine ⟨k, ⟨k.2, by omega⟩, ?_⟩
  rintro k' ⟨hk'9, hk'd⟩
  exact hinj k' hk'9 k k.2 (by omega)

theorem eachDigitOnce_of_no_conflict (g : Grid_T) (hv : valuesInRange g) (hnz : allNonZero g)
    (hc : ¬ conflict g) (cell : Nat → Nat × Nat)
    (hcell : ∀ k < 9, (cell k).1 < 9 ∧ (cell k).2 < 9)
    (hpeer : ∀ k < 9, ∀ k' < 9, k ≠ k' → peer (cell k).1 (cell k).2 (cell k').1 (cell k').2) :
    eachDigitOnce g cell := by
  intro d hd1 hd9
  refine exactly_once (fun k => grid_read_value g (cell k).1 (cell k).2) ?_ ?_ d hd1 hd9
  · intro k hk
    obtain ⟨h1, h2⟩ := hcell k hk
    exact ⟨Nat.one_le_iff_ne_zero.2 (hnz _ h1 _ h2), hv _ h1 _ h2⟩
  · intro k hk k' hk' he
    by_contra hne
    obtain ⟨h1, h2⟩ := hcell k hk
    obtain ⟨h1', h2'⟩ := hcell k' hk'
    exact hc ⟨_, h1, _, h2, _, h1', _, h2', hpeer k hk k' hk' hne, hnz _ h1 _ h2, he⟩

theorem solvedGrid_of_no_conflict (g : Grid_T) (hv : valuesInRange g) (hnz : allNonZero g)
    (hc : ¬ conflict g) : solvedGrid g := by
  intro b hb
  refine ⟨?_, ?_, ?_⟩
  · refine eachDigitOnce_of_no_conflict g hv hnz hc _ (fun k hk => ⟨hb, hk⟩) ?_
    intro k _ k' hk' hne
    exact ⟨hb, hk', Or.inr (fun h => hne h.symm), Or.inl rfl⟩
  · refine eachDigitOnce_of_no_conflict g hv hnz hc _ (fun k hk => ⟨hk, hb⟩) ?_
    intro k _ k' hk' hne
    exact ⟨hk', hb, Or.inl (fun h => hne h.symm), Or.inr (Or.inl rfl)⟩
  · refine eachDigitOnce_of_no_conflict g hv hnz hc _ ?_ ?_
    · intro k hk
      simp only [blockCell]
      omega
    · intro k hk k' hk' hne
      simp only [blockCell, peer]
      omega

theorem conflict_congr (g g' : Grid_T)
    (h : ∀ i j, grid_read_value g' i j = grid_read_value g i j) : conflict g' ↔ conflict g := by
  unfold conflict
  simp only [h]

theorem sudoku_is_correct_congr (g g' : Grid_T)
    (h : ∀ i j, grid_read_value g' i j = grid_read_value g i j) :
    sudoku_is_correct g' = sudoku_is_correct g := by
  rcases sudoku_is_correct_zero_or_one g with h0 | h1
  · rcases sudoku_is_correct_zero_or_one g' with h0' | h1'
    · rw [h0, h0']
    · have := (sudoku_is_correct_iff g').1 h1'
      rw [conflict_congr g g' h] at this
      rw [(sudoku_is_correct_iff g).2 this] at h0
      exact absurd h0 (by decide)
  · have hc := (sudoku_is_correct_iff g).1 h1
    rw [← conflict_congr g g' h] at hc
    rw [h1, (sudoku_is_correct_iff g').2 hc]

theorem allCountsZero_of_full (g : Grid_T) (hv : valuesInRange g) (hnz : allNonZero g) :
    allCountsZero (sudoku_init_choices g) :=
  fun i hi j hj => sudoku_init_choices_count_filled g hv i j hi hj (hnz i hi j hj)

theorem allOnes_range : valuesInRange allOnes := by
  intro i _ j _
  show (1 : Nat) ≤ 9
  decide

theorem allOnes_nonzero : allNonZero allOnes := by
  intro i _ j _
  show (1 : Nat) ≠ 0
  decide

theorem sampleGrid_range : valuesInRange sampleGrid := by
  unfold valuesInRange; decide

theorem sampleGrid_nonzero : allNonZero sampleGrid := by
  unfold allNonZero; decide

set_option maxRecDepth 100000 in
theorem sampleGrid_correct : sudoku_is_correct sampleGrid = 1 := by decide

theorem allNonZero_init (g : Grid_T) (hv : valuesInRange g) (hnz : allNonZero g) :
    allNonZero (sudoku_init_choices g) := by
  intro i hi j hj
  rw [sudoku_init_choices_value g hv]
  exact hnz i hi j hj

theorem allOnes_not_solved (g : Grid_T) (h : ∀ i j, grid_read_value g i j = 1) :
    ¬ solvedGrid g := by
  intro hs
  obtain ⟨k, ⟨_, hk⟩, _⟩ := (hs 0 (by decide)).1 2 (by decide) (by decide)
  rw [h] at hk
  exact absurd hk (by decide)

theorem allOnes_conflict (g : Grid_T) (h : ∀ i j, grid_read_value g i j = 1) : conflict g :=
  ⟨0, by decide, 0, by decide, 0, by decide, 1, by decide,
    ⟨by decide, by decide, Or.inr (by decide), Or.inl rfl⟩, by rw [h]; decide, by rw [h, h]⟩

/-- C2, as stated, fails: on the grid with 1 in every cell `sudoku_solve` returns
at once (every count is 0 after `sudoku_init_choices`); the grid it returns has
no empty cell, but it is not a solved grid and `sudoku_is_correct` rejects it. -/
theorem C2_counterexample_all_ones :
    sudoku_solve (fun _ => 0) 1 0 allOnes =
        some { grid := sudoku_init_choices allOnes, pos := 0, branched := false } ∧
      allNonZero (sudoku_init_choices allOnes) ∧
      ¬ solvedGrid (sudoku_init_choices allOnes) ∧
      sudoku_is_correct (sudoku_init_choices allOnes) = 0 := by
  have hval : ∀ i j, grid_read_value (sudoku_init_choices allOnes) i j = 1 :=
    fun i j => sudoku_init_choices_value allOnes allOnes_range i j
  refine ⟨sudoku_solve_complete _ _ (allCountsZero_of_full _ allOnes_range allOnes_nonzero) 0 0,
    allNonZero_init _ allOnes_range allOnes_nonzero, allOnes_not_solved _ hval, ?_⟩
  rcases sudoku_is_correct_zero_or_one (sudoku_init_choices allOnes) with h | h
  · exact h
  · exact absurd (allOnes_conflict _ hval) ((sudoku_is_correct_iff _).1 h)

theorem sudoku_solve_some_parts (rnd : Nat → Nat) (g : Grid_T) (hv : valuesInRange g)
    (fuel p : Nat) (g' : Grid_T) (p' : Nat) (b : Bool)
    (h : sudoku_solve rnd fuel p g = some { grid := g', pos := p', branched := b }) :
    g' = sudoku_init_choices g ∧ p' = p ∧ b = false := by
  have hs := (sudoku_solve_some rnd g hv fuel p _ h).2
  simp only [SolveResult.mk.injEq] at hs
  exact hs

/-- C2, amended: for an input grid with all values in 0..9 that `sudoku_is_correct`
judges correct, and every outcome of the random draws, if `sudoku_solve` returns
a grid in which all 81 values are non-zero, then in that grid every row, every
column and every 3x3 block contains each digit 1..9 exactly once, and
`sudoku_is_correct` of the result is 1. -/
theorem C2_solve_complete_is_solved (rnd : Nat → Nat) (fuel p : Nat) (g g' : Grid_T)
    (p' : Nat) (b : Bool) (hv : valuesInRange g) (hc : sudoku_is_correct g = 1)
    (h : sudoku_solve rnd fuel p g = some { grid := g', pos := p', branched := b })
    (hnz : allNonZero g') : solvedGrid g' ∧ sudoku_is_correct g' = 1 := by
  obtain ⟨hg, _, _⟩ := sudoku_solve_some_parts rnd g hv fuel p g' p' b h
  have hval : ∀ i j, grid_read_value g' i j = grid_read_value g i j := by
    intro i j
    rw [hg]
    exact sudoku_init_choices_value g hv i j
  have hcorr : sudoku_is_correct g' = 1 := by
    rw [sudoku_is_correct_congr g g' hval]; exact hc
  have hv' : valuesInRange g' := by
    intro i hi j hj
    rw [hval]
    exact hv i hi j hj
  exact ⟨solvedGrid_of_no_conflict g' hv' hnz ((sudoku_is_correct_iff g').1 hcorr), hcorr⟩

theorem C2_solve_complete_is_solved_witness :
    solvedGrid (sudoku_init_choices sampleGrid) ∧
      sudoku_is_correct (sudoku_init_choices sampleGrid) = 1 :=
  C2_solve_complete_is_solved (fun _ => 0) 1 0 sampleGrid (sudoku_init_choices sampleGrid) 0
    false sampleGrid_range sampleGrid_correct
    (sudoku_solve_complete (fun _ => 0) sampleGrid
      (allCountsZero_of_full sampleGrid sampleGrid_range sampleGrid_nonzero) 0 0)
    (allNonZero_init sampleGrid sampleGrid_range sampleGrid_nonzero)

/-- C3 (the code at the failing input): on the all-empty grid `sudoku_solve`
returns for no fuel and no sequence of random draws.  The first guess is made on
a copy, and the recursive call then looks for a cell whose count is the least
count 0, which only the cell just filled has, with a valid digit, which that
cell has not. -/
theorem C3_solve_empty_never_returns (rnd : Nat → Nat) (fuel p : Nat) (u : Int)
    (ch : Nat → Nat → Choice_T) : sudoku_solve rnd fuel p (emptyGrid u ch) = none :=
  sudoku_solve_all_empty rnd (emptyGrid u ch) (fun _ _ _ _ => rfl) fuel p

theorem sudoku_generate_complete_none (rnd : Nat → Nat) (fuel p : Nat) (g0 : Grid_T) :
    sudoku_generate_complete rnd fuel p g0 = none := by
  unfold sudoku_generate_complete
  have hmap : ∀ g : Grid_T, (List.range 9).foldl (fun g i =>
      (List.range 9).foldl (fun g j => grid_update_value g i j 0) g) g =
      mapCells (fun e => { e with val := 0 }) g := fun g =>
    foldl_mapCells (fun e => { e with val := 0 }) g
  simp only [hmap]
  have h0 : ∀ i < 9, ∀ j < 9,
      grid_read_value (mapCells (fun e => { e with val := 0 }) { g0 with unique := 0 }) i j = 0 := by
    intro i hi j hj
    simp only [grid_read_value, mapCells, if_pos (And.intro hi hj)]
  have hv : valuesInRange (mapCells (fun e => { e with val := 0 }) { g0 with unique := 0 }) :=
    fun i hi j hj => by rw [h0 i hi j hj]; omega
  refine sudoku_solve_all_empty rnd _ ?_ fuel p
  intro i hi j hj
  rw [sudoku_init_choices_value _ hv, h0 i hi j hj]

/-- C5 (the code at the failing input): `sudoku_generate` returns for no target
`nelts` (81 included), no fuel, no sequence of random draws and no initial
content of its local grid, because `sudoku_generate_complete` runs
`sudoku_solve` on the all-empty grid. -/
theorem C5_generate_never_returns (rnd : Nat → Nat) (fuel p : Nat) (g0 : Grid_T)
    (nelts : Int) : sudoku_generate rnd fuel p g0 nelts = none := by
  unfold sudoku_generate
  rw [sudoku_generate_complete_none]

/-- C9, as stated, fails: in the grid whose row `i` is 1..9 rotated left by
`3*i mod 9`, rows 0, 3 and 6 are equal, so `check_col_errors` returns 1 and
`sudoku_is_correct` returns 0. -/
theorem C9_counterexample_rotated :
    sudoku_is_correct rotatedGrid = 0 ∧ (check_col_errors rotatedGrid).1 = 1 := by
  constructor
  · set_option maxRecDepth 100000 in decide
  · set_option maxRecDepth 100000 in decide

/-- C9, amended: for the sample grid in the comment above `sudoku_read`, whose
row `i` is 1..9 rotated left by `(3*i + i/3) mod 9` positions,
`sudoku_is_correct` returns 1 and `check_row_errors`, `check_col_errors` and
`check_subgrid_errors` all return 0. -/
theorem C9_sample_grid_correct :
    sampleRows = (List.range 9).map (fun i => digits.rotate ((3 * i + i / 3) % 9)) ∧
    sudoku_is_correct sampleGrid = 1 ∧ (check_row_errors sampleGrid).1 = 0 ∧
    (check_col_errors sampleGrid).1 = 0 ∧ (check_subgrid_errors sampleGrid).1 = 0 := by
  refine ⟨by decide, ?_, ?_, ?_, ?_⟩
  · set_option maxRecDepth 100000 in decide
  · set_option maxRecDepth 100000 in decide
  · set_option maxRecDepth 100000 in decide
  · set_option maxRecDepth 100000 in decide

theorem solveInv_iff (g : Grid_T) : solveInv g ↔ ∀ i < 9, ∀ j < 9, cellInv (g.elts i j) :=
  Iff.rfl

theorem solveInv_candInv (g : Grid_T) (h : solveInv g) : candInv g :=
  fun i hi j hj => (h i hi j hj).1

theorem cellInv_removeElt (e : Elt_T) (n : Nat) (h1 : 1 ≤ n) (h9 : n ≤ 9) (h : cellInv e) :
    cellInv (removeElt n e) := by
  by_cases hv : e.choices.num n ≠ 0
  · refine ⟨?_, ?_⟩
    · rw [removeElt_count, if_pos hv, countValid_removeElt e n h1 h9 hv, h.1]
    · intro hne
      rw [removeElt_val] at hne
      exact absurd ((h.2 hne).2 n h1 h9) hv
  · rw [removeElt_of_invalid n e (by simpa using hv)]
    exact h

theorem candInv_zero_invalid (g : Grid_T) (h : candInv g) (i j : Nat) (hi : i < 9) (hj : j < 9)
    (h0 : grid_read_count g i j = 0) (d : Nat) (hd1 : 1 ≤ d) (hd9 : d ≤ 9) :
    grid_choice_is_valid g i j d = 0 := by
  have hc := h i hi j hj
  rw [h0] at hc
  exact countValid_zero_flags _ (by exact_mod_cast hc.symm) d hd1 hd9

theorem candInv_valid_pos (g : Grid_T) (h : candInv g) (i j : Nat) (hi : i < 9) (hj : j < 9)
    (d : Nat) (hd1 : 1 ≤ d) (hd9 : d ≤ 9) (hv : grid_choice_is_valid g i j d ≠ 0) :
    1 ≤ grid_read_count g i j := by
  have hc := h i hi j hj
  have hpos : 0 < countValid (g.elts i j) := by
    unfold countValid
    refine List.countP_pos_iff.2 ⟨d, by rw [List.mem_range'_1]; omega, ?_⟩
    simpa [grid_choice_is_valid] using hv
  omega

theorem minCount_eq_zero (g : Grid_T) (h : candInv g)
    (hz : ∃ i < 9, ∃ j < 9, grid_read_count g i j = 0) : minCount g = 0 := by
  obtain ⟨i, hi, j, hj, h0⟩ := hz
  have h1 := (minCount_le g).2 i hi j hj
  have h2 := minCount_ge g 0 (by decide) (fun a ha b hb => by
    rw [h a ha b hb]
    exact Int.ofNat_nonneg _)
  omega

theorem sudoku_try_next_none_of_zero (rnd : Nat → Nat) (g : Grid_T) (h : candInv g)
    (hz : ∃ i < 9, ∃ j < 9, grid_read_count g i j = 0) (hnz : ¬ allCountsZero g)
    (fuel p row col : Nat) : sudoku_try_next rnd fuel p g row col = none := by
  unfold sudoku_try_next
  rw [if_neg (fun hc => hnz ((isComplete_ne_zero_iff _).1 hc)), minCount_eq_zero g h hz]
  exact sudoku_try_next_loop_none rnd g 0
    (fun r hr c hc hcnt d hd1 hd9 => candInv_zero_invalid g h r c hr hc hcnt d hd1 hd9) fuel p

theorem sudoku_init_choices_solveInv (g : Grid_T) (hv : valuesInRange g) :
    solveInv (sudoku_init_choices g) := by
  intro i hi j hj
  refine ⟨sudoku_init_choices_count g hv i j hi hj, fun hne => ?_⟩
  rw [sudoku_init_choices_value g hv] at hne
  exact (sudoku_init_choices_inv g hv).filled i j hi hj (Or.inr ⟨hi, hj⟩) hne

/-- C11: on a grid that satisfies the candidate invariant and has a cell with
count 0 and a cell with count above 0, the least count found by
`sudoku_try_next` is 0, no cell `(r,c)` and digit `num` in 1..9 pass its
acceptance test, and it returns for no fuel and no random draws; and
`sudoku_solve` returns on no grid with values in 0..9 that has a filled cell and
an empty cell for which some digit is held by none of its peers. -/
theorem C11_try_next_never_accepts :
    (∀ g : Grid_T, candInv g →
      (∃ i < 9, ∃ j < 9, grid_read_count g i j = 0) →
      (∃ i < 9, ∃ j < 9, 0 < grid_read_count g i j) →
      minCount g = 0 ∧
      (∀ r < 9, ∀ c < 9, ∀ num, 1 ≤ num → num ≤ 9 →
        ¬ (grid_read_count g r c = minCount g ∧ grid_choice_is_valid g r c num ≠ 0)) ∧
      (∀ (rnd : Nat → Nat) (fuel p row col : Nat),
        sudoku_try_next rnd fuel p g row col = none)) ∧
    (∀ x : Grid_T, valuesInRange x →
      (∃ i < 9, ∃ j < 9, grid_read_value x i j ≠ 0) →
      (∃ i < 9, ∃ j < 9, grid_read_value x i j = 0 ∧ ∃ d, 1 ≤ d ∧ d ≤ 9 ∧ noPeerHas x i j d) →
      ∀ (rnd : Nat → Nat) (fuel p : Nat), sudoku_solve rnd fuel p x = none) := by
  constructor
  · intro g hinv hz hp
    have hmin := minCount_eq_zero g hinv hz
    refine ⟨hmin, ?_, ?_⟩
    · intro r hr c hc num h1 h9 hacc
      rw [hmin] at hacc
      exact hacc.2 (candInv_zero_invalid g hinv r c hr hc hacc.1 num h1 h9)
    · intro rnd fuel p row col
      refine sudoku_try_next_none_of_zero rnd g hinv hz ?_ fuel p row col
      intro hall
      obtain ⟨i, hi, j, hj, hpos⟩ := hp
      rw [hall i hi j hj] at hpos
      exact absurd hpos (by decide)
  · intro x hv hf he rnd fuel p
    obtain ⟨i, hi, j, hj, hne⟩ := hf
    obtain ⟨a, ha, b, hb, h0, d, hd1, hd9, hfree⟩ := he
    refine sudoku_solve_stuck rnd x hv ?_
      ⟨i, hi, j, hj, sudoku_init_choices_count_filled x hv i j hi hj hne⟩ fuel p
    intro hall
    exact sudoku_init_choices_count_ne_zero x hv a b d ha hb h0 hd1 hd9 hfree (hall a ha b hb)

theorem twoFives_free_digit : noPeerHas twoFives 4 4 1 := by
  intro a _ b _ _
  simp only [grid_read_value, twoFives]
  split <;> omega

theorem C11_try_next_never_accepts_witness :
    sudoku_try_next (fun _ => 0) 5 0 (sudoku_init_choices twoFives) 0 0 = none ∧
    sudoku_solve (fun _ => 0) 5 0 twoFives = none :=
  ⟨(C11_try_next_never_accepts.1 (sudoku_init_choices twoFives)
      (fun i hi j hj => sudoku_init_choices_count twoFives twoFives_range i j hi hj)
      ⟨0, by decide, 0, by decide,
        sudoku_init_choices_count_filled twoFives twoFives_range 0 0 (by decide) (by decide)
          (by decide)⟩
      ⟨4, by decide, 4, by decide,
        lt_of_le_of_ne
          (by rw [sudoku_init_choices_count twoFives twoFives_range 4 4 (by decide) (by decide)]
              exact Int.ofNat_nonneg _)
          (Ne.symm (sudoku_init_choices_count_ne_zero twoFives twoFives_range 4 4 1 (by decide)
            (by decide) (by decide) (by decide) (by decide) twoFives_free_digit))⟩).2.2
      (fun _ => 0) 5 0 0 0,
   C11_try_next_never_accepts.2 twoFives twoFives_range
    ⟨0, by decide, 0, by decide, by decide⟩
    ⟨4, by decide, 4, by decide, by decide, 1, by decide, by decide, twoFives_free_digit⟩
    (fun _ => 0) 5 0⟩

theorem grid_remove_choice_elts (g : Grid_T) (a b n i j : Nat) :
    (grid_remove_choice g a b n).elts i j =
      if i = a ∧ j = b then removeElt n (g.elts i j) else g.elts i j := by
  rw [grid_remove_choice_eq, setElt_elts]
  by_cases h : i = a ∧ j = b
  · rw [if_pos h, if_pos h, h.1, h.2]
  · rw [if_neg h, if_neg h]

theorem grid_remove_choice_value (g : Grid_T) (a b n i j : Nat) :
    grid_read_value (grid_remove_choice g a b n) i j = grid_read_value g i j := by
  show ((grid_remove_choice g a b n).elts i j).val = (g.elts i j).val
  rw [grid_remove_choice_elts]
  split
  · exact removeElt_val n _
  · rfl

theorem sudoku_eliminate_choice_value (g : Grid_T) (r c n i j : Nat) (hr : r < 9) (hc : c < 9) :
    grid_read_value (sudoku_eliminate_choice g r c n) i j = grid_read_value g i j := by
  have ht := sudoku_eliminate_choice_touched g r c n hr hc
  show ((sudoku_eliminate_choice g r c n).elts i j).val = (g.elts i j).val
  by_cases hp : peer r c i j
  · rw [(ht.2 i j).1 hp, removeElt_val]
  · rw [(ht.2 i j).2 hp]

theorem grid_update_value_value (g : Grid_T) (a b n i j : Nat) :
    grid_read_value (grid_update_value g a b n) i j =
      if i = a ∧ j = b then n else grid_read_value g i j := by
  show ((grid_update_value g a b n).elts i j).val = _
  unfold grid_update_value
  rw [setElt_elts]
  split <;> rfl

theorem solveInv_remove (g : Grid_T) (a b n : Nat) (h1 : 1 ≤ n) (h9 : n ≤ 9)
    (h : solveInv g) : solveInv (grid_remove_choice g a b n) := by
  intro i hi j hj
  show cellInv ((grid_remove_choice g a b n).elts i j)
  rw [grid_remove_choice_elts]
  split
  · exact cellInv_removeElt _ n h1 h9 (h i hi j hj)
  · exact h i hi j hj

theorem solveInv_eliminate (g : Grid_T) (r c n : Nat) (hr : r < 9) (hc : c < 9) (h1 : 1 ≤ n)
    (h9 : n ≤ 9) (h : solveInv g) : solveInv (sudoku_eliminate_choice g r c n) := by
  have ht := sudoku_eliminate_choice_touched g r c n hr hc
  intro i hi j hj
  show cellInv ((sudoku_eliminate_choice g r c n).elts i j)
  by_cases hp : peer r c i j
  · rw [(ht.2 i j).1 hp]
    exact cellInv_removeElt _ n h1 h9 (h i hi j hj)
  · rw [(ht.2 i j).2 hp]
    exact h i hi j hj

theorem solveInv_clear_unique (g : Grid_T) (h : solveInv g) : solveInv (grid_clear_unique g) :=
  h

theorem solveInv_commit (g : Grid_T) (i j n : Nat) (hi : i < 9) (hj : j < 9) (h1 : 1 ≤ n)
    (h9 : n ≤ 9) (hvalid : grid_choice_is_valid g i j n ≠ 0) (hcount : grid_read_count g i j = 1)
    (h : solveInv g) :
    solveInv (sudoku_eliminate_choice
      (grid_update_value (sudoku_update_choice g i j n).2 i j n) i j n) := by
  rw [sudoku_update_choice_snd]
  refine solveInv_eliminate _ i j n hi hj h1 h9 ?_
  have hrem := solveInv_remove g i j n h1 h9 h
  have hcell : (grid_remove_choice g i j n).elts i j = removeElt n (g.elts i j) := by
    rw [grid_remove_choice_elts, if_pos ⟨rfl, rfl⟩]
  have hc0 : ((grid_remove_choice g i j n).elts i j).choices.count = 0 := by
    have hv' : (g.elts i j).choices.num n ≠ 0 := hvalid
    rw [hcell, removeElt_count, if_pos hv']
    have : (g.elts i j).choices.count = 1 := hcount
    omega
  have hflags : ∀ d, 1 ≤ d → d ≤ 9 → ((grid_remove_choice g i j n).elts i j).choices.num d = 0 := by
    intro d hd1 hd9
    have hcv := (hrem i hi j hj).1
    refine countValid_zero_flags _ ?_ d hd1 hd9
    have hcv' : ((grid_remove_choice g i j n).elts i j).choices.count =
        (countValid ((grid_remove_choice g i j n).elts i j) : Int) := hcv
    omega
  intro a ha b hb
  show cellInv ((grid_update_value (grid_remove_choice g i j n) i j n).elts a b)
  unfold grid_update_value
  rw [setElt_elts]
  by_cases hab : a = i ∧ b = j
  · rw [if_pos hab]
    refine ⟨?_, fun _ => ⟨hc0, hflags⟩⟩
    show ((grid_remove_choice g i j n).elts i j).choices.count = _
    have hcv : countValid ({ (grid_remove_choice g i j n).elts i j with val := n } : Elt_T) = 0 :=
      countValid_eq_zero _ hflags
    rw [hc0, hcv]; rfl
  · rw [if_neg hab]
    exact hrem a ha b hb

theorem sudoku_solve_loop_zero (solve : Nat → Grid_T → Option SolveResult) (rnd : Nat → Nat)
    (p : Nat) (g : Grid_T) (i j : Nat) (br : Bool) :
    sudoku_solve_loop solve rnd 0 p g i j br = none := rfl

theorem sudoku_solve_loop_induct (solve : Nat → Grid_T → Option SolveResult) (rnd : Nat → Nat)
    (I : Grid_T → Prop) (Q : Grid_T → Prop)
    (hret : ∀ g, I g → Q g)
    (hcommit : ∀ g i j n, I g → goodChoice g i j n → grid_read_count g i j = 1 →
      I (sudoku_eliminate_choice (grid_update_value (sudoku_update_choice g i j n).2 i j n) i j n))
    (hbranch : ∀ g i j n, I g → goodChoice g i j n →
      I (grid_clear_unique (sudoku_update_choice g i j n).2))
    (hrec : ∀ g i j n p s, I g → goodChoice g i j n →
      solve p (grid_update_value (grid_clear_unique (sudoku_update_choice g i j n).2) i j n) =
        some s → Q s.grid) :
    ∀ (fuel p : Nat) (g : Grid_T) (i j : Nat) (br : Bool) (r : SolveResult), I g →
      sudoku_solve_loop solve rnd fuel p g i j br = some r → Q r.grid := by
  intro fuel
  induction fuel with
  | zero =>
    intro p g i j br r _ h
    rw [sudoku_solve_loop_zero] at h
    exact absurd h (by simp)
  | succ f ih =>
    intro p g i j br r hI h
    rw [sudoku_solve_loop_succ] at h
    cases ht : sudoku_try_next rnd (f + 1) p g i j with
    | none =>
      rw [ht] at h
      exact absurd h (by simp)
    | some t =>
      rw [ht] at h
      simp only at h
      obtain ⟨_, _, h3⟩ := sudoku_try_next_some rnd (f + 1) p g i j t ht
      by_cases hret0 : t.ret = 0
      · rw [if_pos hret0] at h
        have hr := Option.some.inj h
        rw [← hr]
        exact hret g hI
      · rw [if_neg hret0] at h
        obtain ⟨hr1, hr9, hrow, hcol, hvalid, _⟩ := h3 hret0
        have hgood : goodChoice g t.row t.col t.ret := ⟨hr1, hr9, hrow, hcol, hvalid⟩
        by_cases hone : (sudoku_update_choice g t.row t.col t.ret).1 = 1
        · rw [if_pos hone] at h
          exact ih _ _ _ _ _ r (hcommit g _ _ _ hI hgood hone) h
        · rw [if_neg hone] at h
          cases hs : solve t.pos (grid_update_value
              (grid_clear_unique (sudoku_update_choice g t.row t.col t.ret).2)
              t.row t.col t.ret) with
          | none =>
            rw [hs] at h
            exact absurd h (by simp)
          | some s =>
            rw [hs] at h
            simp only at h
            by_cases hcor : sudoku_is_correct s.grid ≠ 0
            · rw [if_pos hcor] at h
              have hr := Option.some.inj h
              rw [← hr]
              exact hrec g _ _ _ _ s hI hgood hs
            · rw [if_neg hcor] at h
              exact ih _ _ _ _ _ r (hbranch g _ _ _ hI hgood) h

theorem workInv_commit (g : Grid_T) (i j n : Nat) (h : workInv g) (hg : goodChoice g i j n)
    (hc : grid_read_count g i j = 1) :
    workInv (sudoku_eliminate_choice
      (grid_update_value (sudoku_update_choice g i j n).2 i j n) i j n) := by
  obtain ⟨h1, h9, hi, hj, hvalid⟩ := hg
  refine ⟨?_, solveInv_commit g i j n hi hj h1 h9 hvalid hc h.2⟩
  intro a ha b hb
  rw [sudoku_eliminate_choice_value _ _ _ _ _ _ hi hj, grid_update_value_value,
    sudoku_update_choice_snd]
  split
  · exact h9
  · rw [grid_remove_choice_value]
    exact h.1 a ha b hb

theorem workInv_branch (g : Grid_T) (i j n : Nat) (h : workInv g) (hg : goodChoice g i j n) :
    workInv (grid_clear_unique (sudoku_update_choice g i j n).2) := by
  obtain ⟨h1, h9, _, _, _⟩ := hg
  rw [sudoku_update_choice_snd]
  refine ⟨?_, solveInv_clear_unique _ (solveInv_remove g i j n h1 h9 h.2)⟩
  intro a ha b hb
  show grid_read_value (grid_remove_choice g i j n) a b ≤ 9
  rw [grid_remove_choice_value]
  exact h.1 a ha b hb

theorem guess_range (g : Grid_T) (i j n : Nat) (h : valuesInRange g) (h9 : n ≤ 9) :
    valuesInRange (grid_update_value (grid_clear_unique (sudoku_update_choice g i j n).2) i j n) := by
  intro a ha b hb
  rw [guess_value]
  split
  · exact h9
  · exact h a ha b hb

theorem sudoku_solve_loop_solveInv (solve : Nat → Grid_T → Option SolveResult)
    (rnd : Nat → Nat)
    (hsolve : ∀ p tmp s, valuesInRange tmp → solve p tmp = some s → solveInv s.grid)
    (fuel p : Nat) (g : Grid_T) (i j : Nat) (br : Bool) (r : SolveResult) (hI : workInv g)
    (h : sudoku_solve_loop solve rnd fuel p g i j br = some r) : solveInv r.grid :=
  sudoku_solve_loop_induct solve rnd workInv solveInv (fun _ hg => hg.2)
    (fun g i j n hg hgood hc => workInv_commit g i j n hg hgood hc)
    (fun g i j n hg hgood => workInv_branch g i j n hg hgood)
    (fun g i j n p s hg hgood hs => hsolve p _ s (guess_range g i j n hg.1 hgood.2.1) hs)
    fuel p g i j br r hI h

theorem sudoku_solve_solveInv (rnd : Nat → Nat) (fuel : Nat) :
    ∀ (p : Nat) (g : Grid_T) (s : SolveResult), valuesInRange g →
      sudoku_solve rnd fuel p g = some s → solveInv s.grid := by
  induction fuel with
  | zero =>
    intro p g s _ h
    exact absurd h (by simp [sudoku_solve])
  | succ f ih =>
    intro p g s hv h
    rw [sudoku_solve_succ] at h
    refine sudoku_solve_loop_solveInv (sudoku_solve rnd f) rnd
      (fun p tmp s hvt hs => ih p tmp s hvt hs) (f + 1) p _ 0 0 false s ?_ h
    refine ⟨?_, sudoku_init_choices_solveInv g hv⟩
    intro a ha b hb
    rw [sudoku_init_choices_value g hv]
    exact hv a ha b hb

/-- C12: the invariant `solveInv` (in every cell the count is the number of
digits 1..9 marked valid, and a filled cell has no valid digit and count 0)
holds after `sudoku_init_choices` on every grid with values in 0..9; it is kept
by the forced commit (`sudoku_update_choice`, `grid_update_value`,
`sudoku_eliminate_choice`) and by the branch case (`sudoku_update_choice` and
`grid_clear_unique` on `g`) for every cell and digit that `sudoku_try_next` can
answer; and it holds of every grid that `sudoku_solve` returns. -/
theorem C12_solve_invariant :
    (∀ g : Grid_T, valuesInRange g → solveInv (sudoku_init_choices g)) ∧
    (∀ (g : Grid_T) (i j n : Nat), solveInv g → goodChoice g i j n →
      grid_read_count g i j = 1 →
      solveInv (sudoku_eliminate_choice
        (grid_update_value (sudoku_update_choice g i j n).2 i j n) i j n)) ∧
    (∀ (g : Grid_T) (i j n : Nat), solveInv g → goodChoice g i j n →
      solveInv (grid_clear_unique (sudoku_update_choice g i j n).2)) ∧
    (∀ (rnd : Nat → Nat) (fuel p : Nat) (g g' : Grid_T) (p' : Nat) (b : Bool),
      valuesInRange g →
      sudoku_solve rnd fuel p g = some { grid := g', pos := p', branched := b } →
      solveInv g') := by
  refine ⟨sudoku_init_choices_solveInv, ?_, ?_, ?_⟩
  · intro g i j n h hg hc
    exact solveInv_commit g i j n hg.2.2.1 hg.2.2.2.1 hg.1 hg.2.1 hg.2.2.2.2 hc h
  · intro g i j n h hg
    rw [sudoku_update_choice_snd]
    exact solveInv_clear_unique _ (solveInv_remove g i j n hg.1 hg.2.1 h)
  · intro rnd fuel p g g' p' b hv h
    exact sudoku_solve_solveInv rnd fuel p g _ hv h

theorem C12_solve_invariant_witness :
    solveInv (sudoku_init_choices twoFives) ∧ solveInv (sudoku_init_choices sampleGrid) :=
  ⟨C12_solve_invariant.1 twoFives twoFives_range,
   C12_solve_invariant.2.2.2 (fun _ => 0) 1 0 sampleGrid (sudoku_init_choices sampleGrid) 0
    false sampleGrid_range
    (sudoku_solve_complete (fun _ => 0) sampleGrid
      (allCountsZero_of_full sampleGrid sampleGrid_range sampleGrid_nonzero) 0 0)⟩

theorem goodChoice_empty (g : Grid_T) (i j n : Nat) (h : solveInv g) (hg : goodChoice g i j n) :
    grid_read_value g i j = 0 := by
  obtain ⟨h1, h9, hi, hj, hvalid⟩ := hg
  by_contra hne
  exact hvalid (((h i hi j hj).2 hne).2 n h1 h9)

theorem keepsClues_trans (g0 g1 g2 : Grid_T) (h1 : keepsClues g0 g1) (h2 : keepsClues g1 g2) :
    keepsClues g0 g2 := by
  intro i hi j hj hne
  have e1 := h1 i hi j hj hne
  rw [h2 i hi j hj (by rw [e1]; exact hne), e1]

theorem keepsClues_set (g g' : Grid_T) (i j n : Nat) (h0 : grid_read_value g i j = 0)
    (hval : ∀ a b, grid_read_value g' a b = if a = i ∧ b = j then n else grid_read_value g a b) :
    keepsClues g g' := by
  intro a _ b _ hne
  rw [hval, if_neg]
  rintro ⟨rfl, rfl⟩
  exact hne h0

theorem commit_value (g : Grid_T) (i j n a b : Nat) (hi : i < 9) (hj : j < 9) :
    grid_read_value (sudoku_eliminate_choice
      (grid_update_value (sudoku_update_choice g i j n).2 i j n) i j n) a b =
      if a = i ∧ b = j then n else grid_read_value g a b := by
  rw [sudoku_eliminate_choice_value _ _ _ _ _ _ hi hj, grid_update_value_value,
    sudoku_update_choice_snd]
  split
  · rfl
  · exact grid_remove_choice_value g i j n a b

theorem branch_value (g : Grid_T) (i j n a b : Nat) :
    grid_read_value (grid_clear_unique (sudoku_update_choice g i j n).2) a b =
      grid_read_value g a b := by
  rw [sudoku_update_choice_snd]
  exact grid_remove_choice_value g i j n a b

theorem sudoku_solve_loop_keepsClues (solve : Nat → Grid_T → Option SolveResult)
    (rnd : Nat → Nat)
    (hsolve : ∀ p tmp s, valuesInRange tmp → solve p tmp = some s → keepsClues tmp s.grid)
    (g0 : Grid_T) (fuel p : Nat) (g : Grid_T) (i j : Nat) (br : Bool) (r : SolveResult)
    (hI : workInv g ∧ keepsClues g0 g)
    (h : sudoku_solve_loop solve rnd fuel p g i j br = some r) : keepsClues g0 r.grid :=
  sudoku_solve_loop_induct solve rnd (fun g => workInv g ∧ keepsClues g0 g) (keepsClues g0)
    (fun _ hg => hg.2)
    (fun g i j n hg hgood hc => ⟨workInv_commit g i j n hg.1 hgood hc,
      keepsClues_trans g0 g _ hg.2 (keepsClues_set g _ i j n (goodChoice_empty g i j n hg.1.2 hgood)
        (fun a b => commit_value g i j n a b hgood.2.2.1 hgood.2.2.2.1))⟩)
    (fun g i j n hg hgood => ⟨workInv_branch g i j n hg.1 hgood,
      fun a ha b hb hne => by rw [branch_value]; exact hg.2 a ha b hb hne⟩)
    (fun g i j n p s hg hgood hs =>
      keepsClues_trans g0 _ _
        (keepsClues_trans g0 g _ hg.2 (keepsClues_set g _ i j n
          (goodChoice_empty g i j n hg.1.2 hgood) (fun a b => guess_value g i j n a b)))
        (hsolve p _ s (guess_range g i j n hg.1.1 hgood.2.1) hs))
    fuel p g i j br r hI h

theorem sudoku_solve_keepsClues (rnd : Nat → Nat) (fuel : Nat) :
    ∀ (p : Nat) (g : Grid_T) (s : SolveResult), valuesInRange g →
      sudoku_solve rnd fuel p g = some s → keepsClues g s.grid := by
  induction fuel with
  | zero =>
    intro p g s _ h
    exact absurd h (by simp [sudoku_solve])
  | succ f ih =>
    intro p g s hv h
    rw [sudoku_solve_succ] at h
    refine sudoku_solve_loop_keepsClues (sudoku_solve rnd f) rnd
      (fun p tmp s hvt hs => ih p tmp s hvt hs) g (f + 1) p _ 0 0 false s ⟨⟨?_, ?_⟩, ?_⟩ h
    · intro a ha b hb
      rw [sudoku_init_choices_value g hv]
      exact hv a ha b hb
    · exact sudoku_init_choices_solveInv g hv
    · intro a _ b _ _
      exact sudoku_init_choices_value g hv a b

/-- C17: `sudoku_solve` never overwrites a clue: in every grid it returns on an
input with values in 0..9, each cell that is non-zero in the input has the same
value; and on a working grid (one satisfying `solveInv`) the cell for which
`sudoku_try_next` answers a non-zero digit, the only cell `grid_update_value` is
then applied to, is empty. -/
theorem C17_clues_kept :
    (∀ (rnd : Nat → Nat) (fuel p : Nat) (g g' : Grid_T) (p' : Nat) (b : Bool),
      valuesInRange g →
      sudoku_solve rnd fuel p g = some { grid := g', pos := p', branched := b } →
      ∀ i < 9, ∀ j < 9, grid_read_value g i j ≠ 0 →
        grid_read_value g' i j = grid_read_value g i j) ∧
    (∀ (g : Grid_T), solveInv g → ∀ (rnd : Nat → Nat) (fuel p row col : Nat) (t : TryNext),
      sudoku_try_next rnd fuel p g row col = some t → t.ret ≠ 0 →
      grid_read_value g t.row t.col = 0) := by
  constructor
  · intro rnd fuel p g g' p' b hv h
    exact sudoku_solve_keepsClues rnd fuel p g _ hv h
  · intro g hinv rnd fuel p row col t ht hne
    obtain ⟨_, _, h3⟩ := sudoku_try_next_some rnd fuel p g row col t ht
    obtain ⟨h1, h9, hr, hc, hvalid, _⟩ := h3 hne
    exact goodChoice_empty g t.row t.col t.ret hinv ⟨h1, h9, hr, hc, hvalid⟩

theorem C17_clues_kept_witness :
    grid_read_value (sudoku_init_choices sampleGrid) 0 0 = grid_read_value sampleGrid 0 0 :=
  C17_clues_kept.1 (fun _ => 0) 1 0 sampleGrid (sudoku_init_choices sampleGrid) 0 false
    sampleGrid_range
    (sudoku_solve_complete (fun _ => 0) sampleGrid
      (allCountsZero_of_full sampleGrid sampleGrid_range sampleGrid_nonzero) 0 0)
    0 (by decide) 0 (by decide) (by decide)

theorem foldl_count_eq {α : Type} (p : α → Bool) (L : List α) (c0 : Nat) :
    L.foldl (fun c x => if p x = true then c + 1 else c) c0 = c0 + L.countP p := by
  induction L generalizing c0 with
  | nil => simp
  | cons x xs ih =>
    rw [List.foldl_cons, ih, List.countP_cons]
    by_cases hx : p x = true
    · rw [if_pos hx, if_pos hx]; omega
    · rw [if_neg hx, if_neg hx]; omega

theorem foldl_add_eq_sum {α : Type} (f : α → Nat) (L : List α) (c0 : Nat) :
    L.foldl (fun c x => c + f x) c0 = c0 + (L.map f).sum := by
  induction L generalizing c0 with
  | nil => simp
  | cons x xs ih =>
    rw [List.foldl_cons, ih, List.map_cons, List.sum_cons]
    omega

theorem emptyCells_eq (g : Grid_T) :
    emptyCells g = ((List.range 9).map (emptyInRow g)).sum := by
  unfold emptyCells
  have hinner : ∀ (i c : Nat), (List.range 9).foldl (fun count j =>
      if grid_read_value g i j = 0 then count + 1 else count) c = c + emptyInRow g i := by
    intro i c
    have h := foldl_count_eq (fun j => decide (grid_read_value g i j = 0)) (List.range 9) c
    simp only [decide_eq_true_eq] at h
    exact h
  simp only [hinner]
  rw [foldl_add_eq_sum]
  omega

theorem countP_change {α : Type} (p q : α → Bool) (L : List α) (a : α) (hnd : L.Nodup)
    (ha : a ∈ L) (hpq : ∀ x ∈ L, x ≠ a → q x = p x) :
    L.countP q + (if p a = true then 1 else 0) = L.countP p + (if q a = true then 1 else 0) := by
  induction L with
  | nil => exact absurd ha (List.not_mem_nil a)
  | cons x xs ih =>
    rw [List.countP_cons, List.countP_cons]
    rw [List.nodup_cons] at hnd
    by_cases hxa : x = a
    · subst hxa
      have hrest : xs.countP q = xs.countP p := by
        refine List.countP_congr (fun y hy => ?_)
        have hne : y ≠ x := fun h => hnd.1 (h ▸ hy)
        rw [hpq y (List.mem_cons_of_mem _ hy) hne]
      rw [hrest]
      omega
    · have hmem : a ∈ xs := by
        rcases List.mem_cons.1 ha with h | h
        · exact absurd h.symm hxa
        · exact h
      have := ih hnd.2 hmem (fun y hy hne => hpq y (List.mem_cons_of_mem _ hy) hne)
      rw [hpq x (List.mem_cons_self _ _) hxa]
      omega

theorem sum_change {α : Type} (f f' : α → Nat) (L : List α) (a : α) (hnd : L.Nodup)
    (ha : a ∈ L) (hff : ∀ x ∈ L, x ≠ a → f' x = f x) :
    (L.map f').sum + f a = (L.map f).sum + f' a := by
  induction L with
  | nil => exact absurd ha (List.not_mem_nil a)
  | cons x xs ih =>
    rw [List.map_cons, List.map_cons, List.sum_cons, List.sum_cons]
    rw [List.nodup_cons] at hnd
    by_cases hxa : x = a
    · subst hxa
      have hrest : (xs.map f').sum = (xs.map f).sum := by
        congr 1
        refine List.map_congr_left (fun y hy => ?_)
        have hne : y ≠ x := fun h => hnd.1 (h ▸ hy)
        exact hff y (List.mem_cons_of_mem _ hy) hne
      rw [hrest]
      omega
    · have hmem : a ∈ xs := by
        rcases List.mem_cons.1 ha with h | h
        · exact absurd h.symm hxa
        · exact h
      have := ih hnd.2 hmem (fun y hy hne => hff y (List.mem_cons_of_mem _ hy) hne)
      rw [hff x (List.mem_cons_self _ _) hxa]
      omega

theorem emptyCells_set (g g' : Grid_T) (i j n : Nat) (hi : i < 9) (hj : j < 9)
    (hval : ∀ a b, grid_read_value g' a b = if a = i ∧ b = j then n else grid_read_value g a b) :
    emptyCells g' + (if grid_read_value g i j = 0 then 1 else 0) =
      emptyCells g + (if n = 0 then 1 else 0) := by
  rw [emptyCells_eq, emptyCells_eq]
  have hrow : emptyInRow g' i + (if grid_read_value g i j = 0 then 1 else 0) =
      emptyInRow g i + (if n = 0 then 1 else 0) := by
    have h := countP_change (fun b => decide (grid_read_value g i b = 0))
      (fun b => decide (grid_read_value g' i b = 0)) (List.range 9) j (List.nodup_range 9)
      (List.mem_range.2 hj) (fun b _ hne => by
        show decide (grid_read_value g' i b = 0) = decide (grid_read_value g i b = 0)
        rw [hval, if_neg (fun h : i = i ∧ b = j => hne h.2)])
    have hij : grid_read_value g' i j = n := by
      rw [hval, if_pos ⟨rfl, rfl⟩]
    simp only [decide_eq_true_eq, hij] at h
    exact h
  have hsum := sum_change (emptyInRow g) (emptyInRow g') (List.range 9) i (List.nodup_range 9)
    (List.mem_range.2 hi) (fun a _ hne => by
      unfold emptyInRow
      refine List.countP_congr (fun b _ => ?_)
      rw [hval, if_neg (fun h : a = i ∧ b = j => hne h.1)])
  omega

theorem emptyCells_congr (g g' : Grid_T)
    (h : ∀ i j, grid_read_value g' i j = grid_read_value g i j) :
    emptyCells g' = emptyCells g := by
  unfold emptyCells
  simp only [h]

theorem emptyCells_le (g : Grid_T) : emptyCells g ≤ 81 := by
  rw [emptyCells_eq]
  have hrow : ∀ i, emptyInRow g i ≤ 9 := fun i => by
    unfold emptyInRow
    exact le_trans (List.countP_le_length _) (by simp)
  have hsum : ∀ (L : List Nat), (L.map (emptyInRow g)).sum ≤ 9 * L.length := by
    intro L
    induction L with
    | nil => simp
    | cons x xs ih =>
      rw [List.map_cons, List.sum_cons, List.length_cons]
      have := hrow x
      omega
  have := hsum (List.range 9)
  simpa using this

theorem emptyCells_guess (g : Grid_T) (i j n : Nat) (h : workInv g) (hg : goodChoice g i j n) :
    emptyCells (grid_update_value (grid_clear_unique (sudoku_update_choice g i j n).2) i j n)
      + 1 = emptyCells g := by
  have h0 := goodChoice_empty g i j n h.2 hg
  have hset := emptyCells_set g _ i j n hg.2.2.1 hg.2.2.2.1 (fun a b => guess_value g i j n a b)
  rw [if_pos h0, if_neg (by have := hg.1; omega)] at hset
  omega

theorem emptyCells_commit (g : Grid_T) (i j n : Nat) (h : workInv g) (hg : goodChoice g i j n) :
    emptyCells (sudoku_eliminate_choice
      (grid_update_value (sudoku_update_choice g i j n).2 i j n) i j n) + 1 = emptyCells g := by
  have h0 := goodChoice_empty g i j n h.2 hg
  have hset := emptyCells_set g _ i j n hg.2.2.1 hg.2.2.2.1
    (fun a b => commit_value g i j n a b hg.2.2.1 hg.2.2.2.1)
  rw [if_pos h0, if_neg (by have := hg.1; omega)] at hset
  omega

theorem emptyCells_branch (g : Grid_T) (i j n : Nat) :
    emptyCells (grid_clear_unique (sudoku_update_choice g i j n).2) = emptyCells g :=
  emptyCells_congr g _ (fun a b => branch_value g i j n a b)

theorem sudoku_solve_loop_ext (solve solve' : Nat → Grid_T → Option SolveResult)
    (rnd : Nat → Nat) (E : Nat)
    (hagree : ∀ p tmp, valuesInRange tmp → emptyCells tmp < E → solve p tmp = solve' p tmp) :
    ∀ (fuel p : Nat) (g : Grid_T) (i j : Nat) (br : Bool), workInv g → emptyCells g ≤ E →
      sudoku_solve_loop solve rnd fuel p g i j br =
        sudoku_solve_loop solve' rnd fuel p g i j br := by
  intro fuel
  induction fuel with
  | zero => intro p g i j br _ _; rfl
  | succ f ih =>
    intro p g i j br hI hE
    rw [sudoku_solve_loop_succ, sudoku_solve_loop_succ]
    cases ht : sudoku_try_next rnd (f + 1) p g i j with
    | none => rfl
    | some t =>
      simp only
      obtain ⟨_, _, h3⟩ := sudoku_try_next_some rnd (f + 1) p g i j t ht
      by_cases hret0 : t.ret = 0
      · rw [if_pos hret0, if_pos hret0]
      · rw [if_neg hret0, if_neg hret0]
        obtain ⟨hr1, hr9, hrow, hcol, hvalid, _⟩ := h3 hret0
        have hgood : goodChoice g t.row t.col t.ret := ⟨hr1, hr9, hrow, hcol, hvalid⟩
        by_cases hone : (sudoku_update_choice g t.row t.col t.ret).1 = 1
        · rw [if_pos hone, if_pos hone]
          refine ih _ _ _ _ _ (workInv_commit g _ _ _ hI hgood hone) ?_
          have := emptyCells_commit g _ _ _ hI hgood
          omega
        · rw [if_neg hone, if_neg hone]
          have hlt : emptyCells (grid_update_value
              (grid_clear_unique (sudoku_update_choice g t.row t.col t.ret).2)
              t.row t.col t.ret) < E := by
            have := emptyCells_guess g _ _ _ hI hgood
            omega
          rw [hagree t.pos _ (guess_range g _ _ _ hI.1 hr9) hlt]
          cases hs : solve' t.pos (grid_update_value
              (grid_clear_unique (sudoku_update_choice g t.row t.col t.ret).2)
              t.row t.col t.ret) with
          | none => rfl
          | some s =>
            simp only
            by_cases hcor : sudoku_is_correct s.grid ≠ 0
            · rw [if_pos hcor, if_pos hcor]
            · rw [if_neg hcor, if_neg hcor]
              refine ih _ _ _ _ _ (workInv_branch g _ _ _ hI hgood) ?_
              rw [emptyCells_branch]
              exact hE

theorem workInv_init (g : Grid_T) (hv : valuesInRange g) : workInv (sudoku_init_choices g) := by
  refine ⟨?_, sudoku_init_choices_solveInv g hv⟩
  intro a ha b hb
  rw [sudoku_init_choices_value g hv]
  exact hv a ha b hb

theorem emptyCells_init (g : Grid_T) (hv : valuesInRange g) :
    emptyCells (sudoku_init_choices g) = emptyCells g :=
  emptyCells_congr g _ (fun a b => sudoku_init_choices_value g hv a b)

theorem sudoku_solve_calls_smaller (rnd : Nat → Nat) (fuel p : Nat) (g : Grid_T)
    (solve' : Nat → Grid_T → Option SolveResult) (hv : valuesInRange g)
    (hagree : ∀ q tmp, valuesInRange tmp → emptyCells tmp < emptyCells g →
      solve' q tmp = sudoku_solve rnd fuel q tmp) :
    sudoku_solve_loop solve' rnd (fuel + 1) p (sudoku_init_choices g) 0 0 false =
      sudoku_solve rnd (fuel + 1) p g := by
  rw [sudoku_solve_succ]
  exact sudoku_solve_loop_ext solve' (sudoku_solve rnd fuel) rnd (emptyCells g) hagree
    (fuel + 1) p _ 0 0 false (workInv_init g hv) (le_of_eq (emptyCells_init g hv))

theorem sudoku_solve_limited_eq (rnd : Nat → Nat)
    (cut : Nat → Nat → Grid_T → Option SolveResult) (d : Nat) :
    ∀ (fuel p : Nat) (g : Grid_T), valuesInRange g → emptyCells g < d →
      sudoku_solve_limited rnd cut d fuel p g = sudoku_solve rnd fuel p g := by
  induction d with
  | zero => intro fuel p g _ h; exact absurd h (Nat.not_lt_zero _)
  | succ d ih =>
    intro fuel p g hv hlt
    cases fuel with
    | zero => rfl
    | succ f =>
      show sudoku_solve_loop (sudoku_solve_limited rnd cut d f) rnd (f + 1) p
        (sudoku_init_choices g) 0 0 false = _
      exact sudoku_solve_calls_smaller rnd f p g _ hv
        (fun q tmp hvt hlt' => ih f q tmp hvt (by omega))

/-- C16: on an input grid `g` with values in 0..9, the cell for which
`sudoku_try_next` answers on a working grid is empty and the copy `tmp` with that
cell assigned has one empty cell less; the outcome of an invocation of
`sudoku_solve` on `g` depends on its recursive calls only for grids with strictly
fewer empty cells than `g`, that is, every recursive call it makes is on such a
grid; and so calls nested 82 levels deep never happen: the nesting depth of
`sudoku_solve` calls is at most 81. -/
theorem C16_recursion_depth :
    (∀ (g : Grid_T) (i j n : Nat), workInv g → goodChoice g i j n →
      grid_read_value g i j = 0 ∧
      emptyCells (grid_update_value (grid_clear_unique (sudoku_update_choice g i j n).2) i j n)
        + 1 = emptyCells g) ∧
    (∀ (rnd : Nat → Nat) (fuel p : Nat) (g : Grid_T)
      (solve' : Nat → Grid_T → Option SolveResult), valuesInRange g →
      (∀ q tmp, valuesInRange tmp → emptyCells tmp < emptyCells g →
        solve' q tmp = sudoku_solve rnd fuel q tmp) →
      sudoku_solve_loop solve' rnd (fuel + 1) p (sudoku_init_choices g) 0 0 false =
        sudoku_solve rnd (fuel + 1) p g) ∧
    (∀ (rnd : Nat → Nat) (cut : Nat → Nat → Grid_T → Option SolveResult) (fuel p : Nat)
      (g : Grid_T), valuesInRange g →
      sudoku_solve_limited rnd cut 82 fuel p g = sudoku_solve rnd fuel p g) := by
  refine ⟨fun g i j n h hg => ⟨goodChoice_empty g i j n h.2 hg, emptyCells_guess g i j n h hg⟩,
    fun rnd fuel p g solve' hv hagree => sudoku_solve_calls_smaller rnd fuel p g solve' hv hagree,
    fun rnd cut fuel p g hv => ?_⟩
  exact sudoku_solve_limited_eq rnd cut 82 fuel p g hv
    (Nat.lt_succ_of_le (emptyCells_le g))

theorem fullChoices_workInv : workInv fullChoices := by
  refine ⟨fun _ _ _ _ => by show (0 : Nat) ≤ 9; decide, fun i _ j _ => ⟨?_, fun hne => ?_⟩⟩
  · show (9 : Int) = (countValid (fullChoices.elts i j) : Int)
    have h : countValid (fullChoices.elts i j) = 9 := by
      unfold countValid fullChoices
      rw [range'_one_nine]
      simp
    rw [h]; rfl
  · exact absurd rfl hne

theorem fullChoices_goodChoice : goodChoice fullChoices 0 0 1 :=
  ⟨by decide, by decide, by decide, by decide, by show (1 : Int) ≠ 0; decide⟩

theorem C16_recursion_depth_witness :
    (grid_read_value fullChoices 0 0 = 0 ∧
      emptyCells (grid_update_value
        (grid_clear_unique (sudoku_update_choice fullChoices 0 0 1).2) 0 0 1) + 1 =
        emptyCells fullChoices) ∧
    sudoku_solve_limited (fun _ => 0) (fun _ _ _ => none) 82 3 0 twoFives =
      sudoku_solve (fun _ => 0) 3 0 twoFives :=
  ⟨C16_recursion_depth.1 fullChoices 0 0 1 fullChoices_workInv fullChoices_goodChoice,
   C16_recursion_depth.2.2 (fun _ => 0) (fun _ _ _ => none) 3 0 twoFives twoFives_range⟩

theorem grid_set_count_value (g : Grid_T) (a b i j : Nat) :
    grid_read_value (grid_set_count g a b) i j = grid_read_value g i j := by
  show ((grid_set_count g a b).elts i j).val = (g.elts i j).val
  unfold grid_set_count
  rw [setElt_elts]
  by_cases hab : i = a ∧ j = b
  · rw [if_pos hab, hab.1, hab.2]
  · rw [if_neg hab]

theorem removal_value (g : Grid_T) (i j a b : Nat) :
    grid_read_value (grid_set_count (grid_update_value g i j 0) i j) a b =
      if a = i ∧ b = j then 0 else grid_read_value g a b := by
  rw [grid_set_count_value, grid_update_value_value]

theorem filledCells_removal (g : Grid_T) (i j : Nat) (hi : i < 9) (hj : j < 9) :
    filledCells (grid_set_count (grid_update_value g i j 0) i j) =
      filledCells g - (if grid_read_value g i j ≠ 0 then 1 else 0) := by
  have hset := emptyCells_set g _ i j 0 hi hj (fun a b => removal_value g i j a b)
  unfold filledCells
  by_cases h0 : grid_read_value g i j = 0
  · rw [if_pos h0, if_pos rfl] at hset
    rw [if_neg (by simpa using h0)]
    omega
  · rw [if_neg h0, if_pos rfl] at hset
    rw [if_pos h0]
    omega

theorem sudoku_generate_loop_succ (rnd : Nat → Nat) (nelts : Int) (fuel p : Nat) (g : Grid_T) :
    sudoku_generate_loop rnd nelts (fuel + 1) p g =
      if filledCells g > nelts then
        sudoku_generate_loop rnd nelts fuel (p + 2)
          (grid_set_count (grid_update_value g (rnd p % 9) (rnd (p + 1) % 9) 0)
            (rnd p % 9) (rnd (p + 1) % 9))
      else some (g, p) := rfl

theorem sudoku_generate_loop_exact (rnd : Nat → Nat) (nelts : Int) (fuel : Nat) :
    ∀ (p : Nat) (g g' : Grid_T) (p' : Nat), nelts ≤ filledCells g →
      sudoku_generate_loop rnd nelts fuel p g = some (g', p') → filledCells g' = nelts := by
  induction fuel with
  | zero =>
    intro p g g' p' _ h
    exact absurd h (by simp [sudoku_generate_loop])
  | succ f ih =>
    intro p g g' p' hle h
    rw [sudoku_generate_loop_succ] at h
    by_cases hgt : filledCells g > nelts
    · rw [if_pos hgt] at h
      refine ih _ _ g' p' ?_ h
      rw [filledCells_removal g _ _ (Nat.mod_lt _ (by decide)) (Nat.mod_lt _ (by decide))]
      split <;> omega
    · rw [if_neg hgt] at h
      simp only [Option.some.injEq, Prod.mk.injEq] at h
      rw [← h.1]
      omega

/-- C18: in the removal loop of `sudoku_generate`, one iteration lowers the
number of non-zero cells by one when the drawn cell is non-zero and by nothing
when it is already empty; when the loop, started on a grid with at least `nelts`
non-zero cells, exits, the grid has exactly `nelts` non-zero cells; and when the
grid has at most `nelts` non-zero cells at the start, the loop returns it
unchanged without drawing. -/
theorem C18_removal_loop_exact :
    (∀ (g : Grid_T) (i j : Nat), i < 9 → j < 9 →
      filledCells (grid_set_count (grid_update_value g i j 0) i j) =
        filledCells g - (if grid_read_value g i j ≠ 0 then 1 else 0)) ∧
    (∀ (rnd : Nat → Nat) (nelts : Int) (fuel p : Nat) (g g' : Grid_T) (p' : Nat),
      nelts ≤ filledCells g → sudoku_generate_loop rnd nelts fuel p g = some (g', p') →
      filledCells g' = nelts) ∧
    (∀ (rnd : Nat → Nat) (nelts : Int) (fuel p : Nat) (g : Grid_T),
      filledCells g ≤ nelts → sudoku_generate_loop rnd nelts (fuel + 1) p g = some (g, p)) := by
  refine ⟨filledCells_removal, fun rnd nelts fuel p g g' p' hle h =>
    sudoku_generate_loop_exact rnd nelts fuel p g g' p' hle h, fun rnd nelts fuel p g hle => ?_⟩
  rw [sudoku_generate_loop_succ, if_neg (by omega)]

set_option maxRecDepth 100000 in
theorem twoFives_filled : filledCells twoFives = 2 := by decide

set_option maxRecDepth 100000 in
theorem twoFives_removal_run :
    sudoku_generate_loop (fun _ => 0) 1 2 0 twoFives =
      some (grid_set_count (grid_update_value twoFives 0 0 0) 0 0, 2) := by rfl

theorem C18_removal_loop_exact_witness :
    filledCells (grid_set_count (grid_update_value twoFives 0 0 0) 0 0) = 1 ∧
    sudoku_generate_loop (fun _ => 0) 2 (0 + 1) 0 twoFives = some (twoFives, 0) :=
  ⟨C18_removal_loop_exact.2.1 (fun _ => 0) 1 2 0 twoFives _ 2
      (by rw [twoFives_filled]; decide) twoFives_removal_run,
   C18_removal_loop_exact.2.2 (fun _ => 0) 2 0 0 twoFives (by rw [twoFives_filled])⟩

theorem conflict_removal (g : Grid_T) (i j : Nat)
    (h : conflict (grid_set_count (grid_update_value g i j 0) i j)) : conflict g := by
  obtain ⟨r, hr, c, hc, a, ha, b, hb, hp, hne, he⟩ := h
  rw [removal_value] at hne
  rw [removal_value, removal_value] at he
  by_cases h1 : r = i ∧ c = j
  · rw [if_pos h1] at hne
    exact absurd rfl hne
  · rw [if_neg h1] at hne he
    by_cases h2 : a = i ∧ b = j
    · rw [if_pos h2] at he
      exact absurd he hne
    · rw [if_neg h2] at he
      exact ⟨r, hr, c, hc, a, ha, b, hb, hp, hne, he⟩

theorem is_correct_removal (g : Grid_T) (i j : Nat) (h : sudoku_is_correct g = 1) :
    sudoku_is_correct (grid_set_count (grid_update_value g i j 0) i j) = 1 :=
  (sudoku_is_correct_iff _).2 (fun hc => (sudoku_is_correct_iff g).1 h (conflict_removal g i j hc))

theorem sudoku_generate_loop_correct (rnd : Nat → Nat) (nelts : Int) (fuel : Nat) :
    ∀ (p : Nat) (g g' : Grid_T) (p' : Nat), sudoku_is_correct g = 1 →
      sudoku_generate_loop rnd nelts fuel p g = some (g', p') → sudoku_is_correct g' = 1 := by
  induction fuel with
  | zero =>
    intro p g g' p' _ h
    exact absurd h (by simp [sudoku_generate_loop])
  | succ f ih =>
    intro p g g' p' hc h
    rw [sudoku_generate_loop_succ] at h
    by_cases hgt : filledCells g > nelts
    · rw [if_pos hgt] at h
      exact ih _ _ g' p' (is_correct_removal g _ _ hc) h
    · rw [if_neg hgt] at h
      simp only [Option.some.injEq, Prod.mk.injEq] at h
      rw [← h.1]
      exact hc

/-- C19: emptying a cell keeps a grid correct: if `sudoku_is_correct g` is 1, so
is it after one removal step of `sudoku_generate` (`grid_update_value g i j 0`,
then `grid_set_count`) for any cell; hence the removal loop started on a correct
grid returns only correct grids, and if the grid produced by
`sudoku_generate_complete` is correct, so is every grid that `sudoku_generate`
returns, for every `nelts`. -/
theorem C19_removal_keeps_correct :
    (∀ (g : Grid_T) (i j : Nat), sudoku_is_correct g = 1 →
      sudoku_is_correct (grid_set_count (grid_update_value g i j 0) i j) = 1) ∧
    (∀ (rnd : Nat → Nat) (nelts : Int) (fuel p : Nat) (g g' : Grid_T) (p' : Nat),
      sudoku_is_correct g = 1 → sudoku_generate_loop rnd nelts fuel p g = some (g', p') →
      sudoku_is_correct g' = 1) ∧
    (∀ (rnd : Nat → Nat) (fuel p : Nat) (g0 : Grid_T) (nelts : Int) (gc : Grid_T) (pc : Nat)
      (bc : Bool) (g' : Grid_T) (p' : Nat),
      sudoku_generate_complete rnd fuel p g0 = some { grid := gc, pos := pc, branched := bc } →
      sudoku_is_correct gc = 1 →
      sudoku_generate rnd fuel p g0 nelts = some (g', p') → sudoku_is_correct g' = 1) := by
  refine ⟨is_correct_removal, fun rnd nelts fuel p g g' p' hc h =>
    sudoku_generate_loop_correct rnd nelts fuel p g g' p' hc h, ?_⟩
  intro rnd fuel p g0 nelts gc pc bc g' p' hgc hc h
  unfold sudoku_generate at h
  rw [hgc] at h
  exact sudoku_generate_loop_correct rnd nelts (fuel + 1) pc gc g' p' hc h

theorem C19_removal_keeps_correct_witness :
    sudoku_is_correct (grid_set_count (grid_update_value sampleGrid 0 0 0) 0 0) = 1 :=
  C19_removal_keeps_correct.1 sampleGrid 0 0 sampleGrid_correct

theorem deadGrid_range : valuesInRange deadGrid := by
  unfold valuesInRange; decide

set_option maxRecDepth 100000 in
theorem deadGrid_no_candidates : ∀ i < 9, ∀ j < 9, grid_read_value deadGrid i j = 0 →
    (List.range' 1 9).countP (fun d => decide (noPeerHas deadGrid i j d)) = 0 := by
  decide

theorem deadGrid_counts : allCountsZero (sudoku_init_choices deadGrid) := by
  intro i hi j hj
  by_cases h0 : grid_read_value deadGrid i j = 0
  · rw [sudoku_init_choices_count_empty deadGrid deadGrid_range i j hi hj h0,
      deadGrid_no_candidates i hi j hj h0]
    rfl
  · exact sudoku_init_choices_count_filled deadGrid deadGrid_range i j hi hj h0

set_option maxRecDepth 100000 in
theorem deadGrid_correct : sudoku_is_correct deadGrid = 1 := by decide

/-- C13 (the code at the failing input): `deadGrid` is accepted by
`sudoku_is_correct` and has an empty cell `(0,0)`; after `sudoku_init_choices`
every count is 0, so `isComplete` returns 1 and `sudoku_solve` returns the grid
through its end-of-loop return, for every fuel and random stream, with cell
`(0,0)` still empty. -/
theorem C13_dead_cell_counts_as_complete (rnd : Nat → Nat) (fuel p : Nat) :
    sudoku_is_correct deadGrid = 1 ∧
    grid_read_value deadGrid 0 0 = 0 ∧
    isComplete (sudoku_init_choices deadGrid) = 1 ∧
    sudoku_solve rnd (fuel + 1) p deadGrid =
      some { grid := sudoku_init_choices deadGrid, pos := p, branched := false } ∧
    grid_read_value (sudoku_init_choices deadGrid) 0 0 = 0 := by
  refine ⟨deadGrid_correct, by decide, (isComplete_eq_one_iff _).2 deadGrid_counts,
    sudoku_solve_complete rnd deadGrid deadGrid_counts fuel p, ?_⟩
  rw [sudoku_init_choices_value deadGrid deadGrid_range]
  decide

theorem scan_log (hit : Nat → Bool) (rep : Nat × Nat) (ks : List Nat) (s : CheckState) :
    (scan hit rep ks s).2 = if ks.any hit = true then s.2 ++ [rep] else s.2 := by
  induction ks with
  | nil => simp [scan]
  | cons k ks ih =>
    unfold scan
    by_cases hk : hit k = true
    · rw [if_pos hk, List.any_cons, hk]
      simp
    · rw [if_neg hk, ih, List.any_cons]
      have hk' : hit k = false := by simpa using hk
      rw [hk']
      simp

theorem foldl_measure {σ α : Type} (μ : σ → Nat) (f : σ → α → σ) (c : α → Nat) (L : List α)
    (hf : ∀ x ∈ L, ∀ s, μ (f s x) = μ s + c x) (s : σ) :
    μ (L.foldl f s) = μ s + (L.map c).sum := by
  induction L generalizing s with
  | nil => simp
  | cons x xs ih =>
    rw [List.foldl_cons, ih (fun y hy => hf y (List.mem_cons_of_mem _ hy)),
      hf x (List.mem_cons_self _ _), List.map_cons, List.sum_cons]
    omega

theorem sum_indicator {α : Type} (p : α → Prop) [DecidablePred p] (L : List α) :
    (L.map (fun x => if p x then 1 else 0)).sum = L.countP (fun x => decide (p x)) := by
  induction L with
  | nil => simp
  | cons x xs ih =>
    rw [List.map_cons, List.sum_cons, List.countP_cons, ih]
    by_cases hx : p x
    · simp [hx]; omega
    · simp [hx]

theorem sum_zero {α : Type} (L : List α) : (L.map (fun _ => 0)).sum = 0 := by
  induction L with
  | nil => simp
  | cons x xs ih => rw [List.map_cons, List.sum_cons, ih]

theorem row_step_reports (g : Grid_T) (i i' j : Nat) (hj : j < 9) (s : CheckState) :
    (if grid_read_value g i' j = 0 then s
      else check_row_inner g i' j (List.range' (j + 1) (9 - (j + 1))) s).2.countP
        (fun r => decide (r.2 = i)) =
      s.2.countP (fun r => decide (r.2 = i)) +
        (if i' = i ∧ hasLaterEqual g i' j then 1 else 0) := by
  by_cases h0 : grid_read_value g i' j = 0
  · rw [if_pos h0, if_neg (fun h => h.2.1 h0)]
    rfl
  · rw [if_neg h0, check_row_inner_eq_scan, scan_log]
    have hany : (List.range' (j + 1) (9 - (j + 1))).any
        (fun k => decide (grid_read_value g i' j = grid_read_value g i' k)) = true ↔
        hasLaterEqual g i' j := by
      rw [List.any_eq_true]
      constructor
      · rintro ⟨k, hk, he⟩
        rw [List.mem_range'_1] at hk
        exact ⟨h0, k, by omega, by omega, by simpa using he⟩
      · rintro ⟨_, k, hk, hjk, he⟩
        exact ⟨k, by rw [List.mem_range'_1]; omega, by simpa using he⟩
    by_cases hl : hasLaterEqual g i' j
    · rw [if_pos (hany.2 hl), List.countP_append]
      by_cases hi : i' = i
      · rw [if_pos ⟨hi, hl⟩]
        simp [hi]
      · rw [if_neg (fun h => hi h.1)]
        simp [hi]
    · rw [if_neg (fun h => hl (hany.1 h)), if_neg (fun h => hl h.2)]
      rfl

theorem rowReports_eq (g : Grid_T) (i : Nat) (hi : i < 9) :
    rowReports g i = (List.range 9).countP (fun j => decide (hasLaterEqual g i j)) := by
  unfold rowReports check_row_errors
  have hinner : ∀ i' s, ((List.range 9).foldl (fun s j =>
      if grid_read_value g i' j = 0 then s
      else check_row_inner g i' j (List.range' (j + 1) (9 - (j + 1))) s) s).2.countP
        (fun r => decide (r.2 = i)) =
      s.2.countP (fun r => decide (r.2 = i)) +
        (if i' = i then (List.range 9).countP (fun j => decide (hasLaterEqual g i j)) else 0) := by
    intro i' s
    rw [foldl_measure (fun s : CheckState => s.2.countP (fun r => decide (r.2 = i))) _
      (fun j => if i' = i ∧ hasLaterEqual g i' j then 1 else 0) (List.range 9)
      (fun j hj s => row_step_reports g i i' j (List.mem_range.1 hj) s)]
    by_cases hii : i' = i
    · rw [if_pos hii, hii]
      simp only [true_and]
      rw [sum_indicator]
    · rw [if_neg hii]
      simp only [hii, false_and, if_false]
      rw [sum_zero]
  rw [foldl_measure (fun s : CheckState => s.2.countP (fun r => decide (r.2 = i))) _
    (fun i' => if i' = i then (List.range 9).countP (fun j => decide (hasLaterEqual g i j)) else 0)
    (List.range 9) (fun i' _ s => hinner i' s)]
  have hsum := sum_change (fun _ : Nat => 0)
    (fun i' => if i' = i then (List.range 9).countP (fun j => decide (hasLaterEqual g i j)) else 0)
    (List.range 9) i (List.nodup_range 9) (List.mem_range.2 hi)
    (fun x _ hne => by simp only [if_neg hne])
  rw [sum_zero] at hsum
  simp only [if_true] at hsum
  simp only [List.countP_nil]
  omega

/-- C15, as stated, fails: for a row that starts with three fives
`check_row_errors` prints two lines for the row, while three pairs of its cells
hold equal non-zero values; the inner loop stops at the first match. -/
theorem C15_counterexample_three_fives :
    rowReports threeFives 0 = 2 ∧ equalPairs threeFives 0 = 3 := by
  constructor
  · set_option maxRecDepth 100000 in decide
  · set_option maxRecDepth 100000 in decide

/-- C15, amended: for every grid and every row `i`, the number of lines that
`check_row_errors` prints for row `i` is the number of columns `j` whose cell
is non-empty and has an equal value in a later column of the row: one report
for each non-empty cell that is repeated further right (so three copies of one
digit in a row yield two reports). -/
theorem C15_row_reports (g : Grid_T) (i : Nat) (hi : i < 9) :
    rowReports g i = (List.range 9).countP (fun j => decide (hasLaterEqual g i j)) :=
  rowReports_eq g i hi

theorem C15_row_reports_witness :
    rowReports threeFives 0 =
      (List.range 9).countP (fun j => decide (hasLaterEqual threeFives 0 j)) :=
  C15_row_reports threeFives 0 (by decide)

end Sudoku
